import Mathlib

/-! boost::charconv `from_chars` for floating-point destinations

A shallow embedding of the dispatch layer in
`include/boost/charconv/detail/from_chars_src.hpp` and `src/from_chars.cpp`.

Conventions of the embedding.

* A `const char*` is an address (`Ptr`).  The half-open range `[first, last)` is
  given by its start address `first` and its contents `chars`, so that
  `last = first + chars.length`.
* A C++ reference parameter `T& value` becomes an argument holding the value
  before the call together with a component of the returned pair holding the
  value after the call.
* Functions that the dispatch layer calls but that live in headers outside the
  embedded files (`fast_float::from_chars`, `from_chars_float_impl`, `parser`,
  `compute_float80`, `compute_float128`, `from_chars_strtod`) are parameters of
  the embedded functions, as are the floating-point types themselves.
* The C library's `strtold` is a parameter as well, with `errno` passed in and
  out explicitly.
* For the bit-copy adapters an object is the list of its bytes.
* Where a statement needs the behaviour of the decimal engine itself, the engine
  is the one defined in the section on the decimal fast path, written from the
  spec's contract for it; for `double` its rounding is carried out on `binary64`.
* Where a statement needs the behaviour of a composer itself, the composer is
  `compute_float`, written from the spec's contract for the composers.
-/

namespace charconv

/-! ## Data model -/

/-- The enumerators of `std::errc` that the sources name; `success` is the
value-initialised `std::errc()`, and `other` stands for every remaining
enumerator. -/
inductive errc where
  | success
  | invalid_argument
  | result_out_of_range
  | value_too_large
  | not_supported
  | other (code : Int)
  deriving DecidableEq

/-- Modelled from the spec: the format selector `chars_format` is declared in a
header that is not part of the embedded files; the spec describes it as the
closed set scientific, fixed, hex and general. -/
inductive chars_format where
  | scientific
  | fixed
  | hex
  | general
  deriving DecidableEq

/-- A `const char*`, as an address. -/
abbrev Ptr := Nat

/-- Modelled from the spec: `from_chars_result` is declared in a header that is
not part of the embedded files; the spec describes it as the pair of the
first unconverted position and a status code. -/
structure from_chars_result where
  ptr : Ptr
  ec : errc
  deriving DecidableEq

/-- Modelled from the spec: the boolean view of a result (`if (r)`), whose
declaration is in the absent header; a result is successful iff its status is
success. -/
def from_chars_result.toBool (r : from_chars_result) : Bool :=
  decide (r.ec = errc.success)

/-- Signature shared by every `from_chars(first, last, value, fmt)` overload. -/
abbrev FromChars (T : Type) :=
  Ptr → List Char → T → chars_format → from_chars_result × T

/-! ## Error-domain translator (`src/from_chars.cpp`, lines 29-40) -/

/-- The function `boost::charconv::detail::errno_to_errc`.  The macros `EINVAL` and
`ERANGE` come from the platform's `<cerrno>` and are parameters. -/
def errno_to_errc (EINVAL ERANGE : Int) (errno_value : Int) : errc :=
  if errno_value = EINVAL then errc.invalid_argument
  else if errno_value = ERANGE then errc.result_out_of_range
  else errc.success

/-! ## `float` and `double` (`from_chars_src.hpp`, lines 29-45) -/

/-- The overload `from_chars(const char*, const char*, float&, chars_format)`. -/
def from_chars_float {float : Type}
    (fast_float_from_chars : FromChars float)
    (from_chars_float_impl : FromChars float)
    (first : Ptr) (chars : List Char) (value : float) (fmt : chars_format) :
    from_chars_result × float :=
  if fmt ≠ chars_format.hex then
    fast_float_from_chars first chars value fmt
  else
    from_chars_float_impl first chars value fmt

/-- The overload `from_chars(const char*, const char*, double&, chars_format)`. -/
def from_chars_double {double : Type}
    (fast_float_from_chars : FromChars double)
    (from_chars_float_impl : FromChars double)
    (first : Ptr) (chars : List Char) (value : double) (fmt : chars_format) :
    from_chars_result × double :=
  if fmt ≠ chars_format.hex then
    fast_float_from_chars first chars value fmt
  else
    from_chars_float_impl first chars value fmt

/-! ## Extended composition (`from_chars_src.hpp`, lines 48-128 and 204-266) -/

/-- What `detail::parser(first, last, sign, significand, exponent, fmt)` leaves
behind: its return value and the three reference arguments after the call. -/
structure parser_result where
  r : from_chars_result
  sign : Bool
  significand : Nat
  exponent : Int
  deriving DecidableEq

/-- Signature of `detail::parser`: range, the three reference arguments before
the call, and the format. -/
abbrev Parser :=
  Ptr → List Char → Bool → Nat → Int → chars_format → parser_result

/-- Signature of `compute_float80` and `compute_float128`:
`(exponent, significand, sign, success)`, returning the value and the
`success` reference after the call. -/
abbrev Composer (T : Type) := Int → Nat → Bool → errc → T × errc

/-- Signature of `detail::from_chars_strtod(first, last, value)`. -/
abbrev Strtod (T : Type) := Ptr → List Char → T → from_chars_result × T

/-- The constants and the unary minus of a floating-point type that the
extended-composition overloads use: `numeric_limits<T>::infinity()` (or the
corresponding builtin), `quiet_NaN()`, `signaling_NaN()`, the literal `0.0`,
and negation. -/
structure FloatConsts (T : Type) where
  infinity : T
  quiet_NaN : T
  signaling_NaN : T
  zero : T
  neg : T → T

/-- The overload `from_chars(const char*, const char*, long double&, chars_format)`
for a `long double` wider than `double` (`from_chars_src.hpp`, lines 204-266). -/
def from_chars_long_double {T : Type} (L : FloatConsts T)
    (parser : Parser) (compute_float80 : Composer T) (from_chars_strtod : Strtod T)
    (first : Ptr) (chars : List Char) (value : T) (fmt : chars_format) :
    from_chars_result × T :=
  let p := parser first chars false 0 0 fmt
  let r := p.r
  if r.ec = errc.value_too_large then
    ({ r with ec := errc.success }, if p.sign then L.neg L.infinity else L.infinity)
  else if r.ec = errc.not_supported then
    if p.significand = 0 then
      ({ r with ec := errc.success }, if p.sign then L.neg L.quiet_NaN else L.quiet_NaN)
    else
      ({ r with ec := errc.success },
        if p.sign then L.neg L.signaling_NaN else L.signaling_NaN)
  else if r.ec ≠ errc.success then
    (r, value)
  else if p.significand = 0 then
    (r, if p.sign then L.neg L.zero else L.zero)
  else
    let c := compute_float80 p.exponent p.significand p.sign errc.success
    let return_val := c.1
    let r := { r with ec := c.2 }
    if r.ec = errc.success ∨ r.ec = errc.result_out_of_range then
      (r, return_val)
    else if r.ec = errc.not_supported then
      from_chars_strtod first chars value
    else
      (r, value)

/-- The overload `from_chars(const char*, const char*, __float128&, chars_format)`
(`from_chars_src.hpp`, lines 48-128).  The preprocessor alternatives for infinity
and for the two NaNs all denote the same constants of `__float128`. -/
def from_chars_float128 {T : Type} (Q : FloatConsts T)
    (parser : Parser) (compute_float128 : Composer T) (from_chars_strtod : Strtod T)
    (first : Ptr) (chars : List Char) (value : T) (fmt : chars_format) :
    from_chars_result × T :=
  let p := parser first chars false 0 0 fmt
  let r := p.r
  if r.ec = errc.value_too_large then
    ({ r with ec := errc.success }, if p.sign then Q.neg Q.infinity else Q.infinity)
  else if r.ec = errc.not_supported then
    if p.significand = 0 then
      ({ r with ec := errc.success }, if p.sign then Q.neg Q.quiet_NaN else Q.quiet_NaN)
    else
      ({ r with ec := errc.success },
        if p.sign then Q.neg Q.signaling_NaN else Q.signaling_NaN)
  else if r.ec ≠ errc.success then
    (r, value)
  else if p.significand = 0 then
    (r, if p.sign then Q.neg Q.zero else Q.zero)
  else
    let c := compute_float128 p.exponent p.significand p.sign errc.success
    let return_val := c.1
    let r := { r with ec := c.2 }
    if r.ec = errc.success ∨ r.ec = errc.result_out_of_range then
      (r, return_val)
    else if r.ec = errc.not_supported then
      from_chars_strtod first chars value
    else
      (r, value)

/-! ## Strict-commit wrapper (`from_chars_src.hpp`, lines 284-357) -/

/-- The template `from_chars_strict_impl<T>`.  `from_chars` is the overload of the
base operation selected for `T`; `temp_value` is the content of the
uninitialised local before the base call. -/
def from_chars_strict_impl {T : Type} (from_chars : FromChars T) (temp_value : T)
    (first : Ptr) (chars : List Char) (value : T) (fmt : chars_format) :
    from_chars_result × T :=
  let b := from_chars first chars temp_value fmt
  let r := b.1
  let temp_value := b.2
  if r.toBool then (r, temp_value) else (r, value)

/-- The overloads `from_chars_strict(first, last, value, fmt)`, one per width,
each forwarding to `from_chars_strict_impl`. -/
def from_chars_strict {T : Type} (from_chars : FromChars T) (temp_value : T)
    (first : Ptr) (chars : List Char) (value : T) (fmt : chars_format) :
    from_chars_result × T :=
  from_chars_strict_impl from_chars temp_value first chars value fmt

/-! ## Half and brain-half precision (`from_chars_src.hpp`, lines 131-142 and 174-185) -/

/-- The overload `from_chars(const char*, const char*, std::float16_t&, chars_format)`.
`f` is the content of the uninitialised local `float f`, and `narrow` is
`static_cast<std::float16_t>`. -/
def from_chars_float16 {float float16_t : Type}
    (fast_float_from_chars : FromChars float) (from_chars_float_impl : FromChars float)
    (narrow : float → float16_t) (f : float)
    (first : Ptr) (chars : List Char) (value : float16_t) (fmt : chars_format) :
    from_chars_result × float16_t :=
  let b := from_chars_float fast_float_from_chars from_chars_float_impl first chars f fmt
  let r := b.1
  let f := b.2
  if r.ec = errc.success then (r, narrow f) else (r, value)

/-- The overload `from_chars(const char*, const char*, std::bfloat16_t&, chars_format)`.
`f` is the content of the uninitialised local `float f`, and `narrow` is
`static_cast<std::bfloat16_t>`. -/
def from_chars_bfloat16 {float bfloat16_t : Type}
    (fast_float_from_chars : FromChars float) (from_chars_float_impl : FromChars float)
    (narrow : float → bfloat16_t) (f : float)
    (first : Ptr) (chars : List Char) (value : bfloat16_t) (fmt : chars_format) :
    from_chars_result × bfloat16_t :=
  let b := from_chars_float fast_float_from_chars from_chars_float_impl first chars f fmt
  let r := b.1
  let f := b.2
  if r.ec = errc.success then (r, narrow f) else (r, value)

/-! ## Bit-copy adapters (`from_chars_src.hpp`, lines 144-172, 187-200 and 268-280)

For these overloads an object is its object representation: the list of its
bytes, of length `sizeof` of its type.  The `static_assert`s have no run-time
effect and are not embedded. -/

/-- One byte of an object representation. -/
abbrev Byte := Fin 256

/-- An object representation. -/
abbrev Bytes := List Byte

/-- The function `std::memcpy(&dest, &src, count)` on object representations: the
first `count` bytes of `dest` are replaced by those of `src`. -/
def memcpy (dest src : Bytes) (count : Nat) : Bytes :=
  src.take count ++ dest.drop count

/-- The overload `from_chars(const char*, const char*, std::float32_t&, chars_format)`.
`f` is the content of the uninitialised local `float f`. -/
def from_chars_float32_t (sizeof_float sizeof_float32_t : Nat)
    (fast_float_from_chars : FromChars Bytes) (from_chars_float_impl : FromChars Bytes)
    (f : Bytes)
    (first : Ptr) (chars : List Char) (value : Bytes) (fmt : chars_format) :
    from_chars_result × Bytes :=
  let f := memcpy f value sizeof_float
  let b := from_chars_float fast_float_from_chars from_chars_float_impl first chars f fmt
  let r := b.1
  let f := b.2
  let value := memcpy value f sizeof_float32_t
  (r, value)

/-- The overload `from_chars(const char*, const char*, std::float64_t&, chars_format)`.
`d` is the content of the uninitialised local `double d`. -/
def from_chars_float64_t (sizeof_double sizeof_float64_t : Nat)
    (fast_float_from_chars : FromChars Bytes) (from_chars_float_impl : FromChars Bytes)
    (d : Bytes)
    (first : Ptr) (chars : List Char) (value : Bytes) (fmt : chars_format) :
    from_chars_result × Bytes :=
  let d := memcpy d value sizeof_double
  let b := from_chars_double fast_float_from_chars from_chars_float_impl first chars d fmt
  let r := b.1
  let d := b.2
  let value := memcpy value d sizeof_float64_t
  (r, value)

/-- The overload `from_chars(const char*, const char*, long double&, chars_format)`
for a `long double` of the width of `double` (`from_chars_src.hpp`, lines 187-200,
and `src/from_chars.cpp`, lines 176-189).  `d` is the content of the uninitialised
local `double d`. -/
def from_chars_long_double_64 (sizeof_double sizeof_long_double : Nat)
    (fast_float_from_chars : FromChars Bytes) (from_chars_float_impl : FromChars Bytes)
    (d : Bytes)
    (first : Ptr) (chars : List Char) (value : Bytes) (fmt : chars_format) :
    from_chars_result × Bytes :=
  let d := memcpy d value sizeof_double
  let b := from_chars_double fast_float_from_chars from_chars_float_impl first chars d fmt
  let r := b.1
  let d := b.2
  let value := memcpy value d sizeof_long_double
  (r, value)

/-- The overload `from_chars(const char*, const char*, std::float128_t&, chars_format)`.
`q` is the content of the uninitialised local `__float128 q`. -/
def from_chars_float128_t (sizeof_float128 sizeof_float128_t : Nat)
    (Q : FloatConsts Bytes) (parser : Parser) (compute_float128 : Composer Bytes)
    (from_chars_strtod : Strtod Bytes) (q : Bytes)
    (first : Ptr) (chars : List Char) (value : Bytes) (fmt : chars_format) :
    from_chars_result × Bytes :=
  let q := memcpy q value sizeof_float128
  let b := from_chars_float128 Q parser compute_float128 from_chars_strtod first chars q fmt
  let r := b.1
  let q := b.2
  let value := memcpy value q sizeof_float128_t
  (r, value)

/-! ## The `strtold`-based `long double` overload (`src/from_chars.cpp`, lines 193-207) -/

/-- Signature of the C library's `strtold(nptr, &endptr)` with the error indicator
made explicit: the address and the characters of the NUL-terminated string and
`errno` before the call; the returned value, `endptr` and `errno` after it. -/
abbrev Strtold (T : Type) := Ptr → List Char → Int → T × Ptr × Int

/-- The characters that a reader of the NUL-terminated `tmp.c_str()` sees: those
before the first NUL. -/
def c_str (tmp : List Char) : List Char :=
  tmp.takeWhile (fun c => c ≠ Char.ofNat 0)

/-- The overload `from_chars(const char*, const char*, long double&, chars_format)`
of `src/from_chars.cpp`, lines 193-207.  `tmp_data` is the address of the buffer of
the local `std::string tmp` and `errno` the error indicator before the call; the
error indicator after the call is returned as well. -/
def from_chars_long_double_strtold {T : Type} (EINVAL ERANGE : Int)
    (strtold : Strtold T) (tmp_data : Ptr) (errno : Int)
    (first : Ptr) (chars : List Char) (value : T) (fmt : chars_format) :
    (from_chars_result × T) × Int :=
  let tmp := chars
  let s := strtold tmp_data (c_str tmp) errno
  let value := s.1
  let ptr := s.2.1
  let errno := s.2.2
  let r : from_chars_result := ⟨ptr, errno_to_errc EINVAL ERANGE errno⟩
  ((r, value), errno)

/-! ## The decimal fast-path engine

`fast_float::from_chars` lives in `boost/charconv/detail/fast_float/`, outside the
embedded files.  The definitions of this section follow the contract that the
spec gives for it. -/

/-- Reads the longest run of decimal digits at the start of a text, continuing
from the value `acc`: the accumulated value, the number of digits read, and the
rest of the text. -/
def scan_digits : List Char → Nat → Nat → Nat × Nat × List Char
  | [], acc, n => (acc, n, [])
  | c :: cs, acc, n =>
    if 48 ≤ c.toNat ∧ c.toNat ≤ 57 then scan_digits cs (10 * acc + (c.toNat - 48)) (n + 1)
    else (acc, n, c :: cs)

/-- A decimal token: the number `(-1) ^ sign * significand * 10 ^ exponent`, and
the number of characters the token occupies. -/
structure decimal_token where
  sign : Bool
  significand : Nat
  exponent : Int
  length : Nat
  deriving DecidableEq

/-- Reads an exponent part at the start of a text: a marker `e` or `E`, an optional
sign, and at least one digit.  Returns the exponent and the number of characters
it occupies. -/
def scan_exponent : List Char → Option (Int × Nat)
  | [] => none
  | c :: t =>
    if c = 'e' ∨ c = 'E' then
      let minus := decide (t.head? = some '-')
      let signed := decide (t.head? = some '-' ∨ t.head? = some '+')
      let d := scan_digits (if signed then t.tail else t) 0 0
      if d.2.1 = 0 then none
      else some (if minus then -(d.1 : Int) else (d.1 : Int),
                 1 + (if signed then 1 else 0) + d.2.1)
    else none

/-- Modelled from the spec: the token grammar of the decimal fast-path engine, which
is not part of the embedded files.  The spec gives it as an optional leading `-`
(not `+`), digits, an optional `.` (possibly with no digit after it), and an
optional exponent introduced by `e` or `E` with an optional sign and digits; the
longest valid prefix is taken; the mantissa needs a digit; scientific notation has
the exponent marker, fixed notation does not, and general notation is either. -/
def parse_decimal (fmt : chars_format) (chars : List Char) : Option decimal_token :=
  let sign := decide (chars.head? = some '-')
  let i := scan_digits (if sign then chars.tail else chars) 0 0
  if i.2.1 = 0 then none
  else
    let dot := decide (i.2.2.head? = some '.')
    let f := if dot then scan_digits i.2.2.tail i.1 0 else (i.1, 0, i.2.2)
    let mantissa : decimal_token :=
      ⟨sign, f.1, -(f.2.1 : Int), (if sign then 1 else 0) + i.2.1 + (if dot then 1 else 0) + f.2.1⟩
    match fmt with
    | chars_format.fixed => some mantissa
    | chars_format.scientific =>
      match scan_exponent f.2.2 with
      | some e => some ⟨sign, f.1, e.1 - (f.2.1 : Int), mantissa.length + e.2⟩
      | none => none
    | chars_format.general =>
      match scan_exponent f.2.2 with
      | some e => some ⟨sign, f.1, e.1 - (f.2.1 : Int), mantissa.length + e.2⟩
      | none => some mantissa
    | chars_format.hex => none

/-- Whether a non-zero magnitude is representable at the destination width. -/
inductive magnitude where
  | in_range
  | overflow
  | underflow
  deriving DecidableEq

/-- The arithmetic of the destination width that the decimal engine relies on:
for a non-zero magnitude `significand * 10 ^ exponent`, whether it is in range, and
the nearest representable value (ties to even) with the given sign. -/
structure Rounding (T : Type) where
  classify : Nat → Int → magnitude
  nearest : Bool → Nat → Int → T

/-- Modelled from the spec: the decimal fast-path engine `fast_float::from_chars`,
which is not part of the embedded files.  By the spec it parses the longest valid
decimal prefix and rounds to the nearest representable value; it reports
invalid-argument, with the pointer at `first`, if there is no valid prefix, and
result-out-of-range if the magnitude overflows or underflows, still writing the
infinity or zero of the right sign; a zero token gives the zero of the token's
sign.  The spec leaves the destination on invalid-argument open; the conformance
test expects it unchanged, and so it is here. -/
def fast_float.from_chars {T : Type} (C : FloatConsts T) (R : Rounding T) : FromChars T :=
  fun first chars value fmt =>
    match parse_decimal fmt chars with
    | none => (⟨first, errc.invalid_argument⟩, value)
    | some t =>
      if t.significand = 0 then
        (⟨first + t.length, errc.success⟩, if t.sign then C.neg C.zero else C.zero)
      else
        match R.classify t.significand t.exponent with
        | magnitude.in_range =>
          (⟨first + t.length, errc.success⟩, R.nearest t.sign t.significand t.exponent)
        | magnitude.overflow =>
          (⟨first + t.length, errc.result_out_of_range⟩,
            if t.sign then C.neg C.infinity else C.infinity)
        | magnitude.underflow =>
          (⟨first + t.length, errc.result_out_of_range⟩,
            if t.sign then C.neg C.zero else C.zero)

/-! ## Caller-visible statuses -/

/-- The three statuses that the spec allows a caller to see: success,
invalid-argument and result-out-of-range. -/
def errc.caller_visible (e : errc) : Prop :=
  e = errc.success ∨ e = errc.invalid_argument ∨ e = errc.result_out_of_range

instance (e : errc) : Decidable e.caller_visible := by
  unfold errc.caller_visible
  infer_instance

/-! ## Decimal numerals

What a decimal numeral is and which number it denotes, in the ordinary positional
reading.  The statements about the decimal engine are made for these. -/

/-- A decimal digit character. -/
def is_digit (c : Char) : Prop := 48 ≤ c.toNat ∧ c.toNat ≤ 57

instance (c : Char) : Decidable (is_digit c) := by
  unfold is_digit
  infer_instance

/-- The number that a string of decimal digits denotes. -/
def digits_value (ds : List Char) : Nat :=
  ds.foldl (fun acc c => 10 * acc + (c.toNat - 48)) 0

/-- A decimal numeral part by part: whether it starts with `-`, the digits before
the point, the digits after the point when there is a point, and the exponent
part when there is one (its marker, its sign characters and its digits). -/
structure numeral where
  minus : Bool
  int_digits : List Char
  frac : Option (List Char)
  expo : Option (Char × List Char × List Char)

/-- The characters of the fraction part of a numeral. -/
def numeral.frac_text (n : numeral) : List Char :=
  match n.frac with
  | none => []
  | some fs => '.' :: fs

/-- The characters of the exponent part of a numeral. -/
def numeral.expo_text (n : numeral) : List Char :=
  match n.expo with
  | none => []
  | some e => e.1 :: (e.2.1 ++ e.2.2)

/-- The text of a numeral. -/
def numeral.text (n : numeral) : List Char :=
  (if n.minus then ['-'] else []) ++ (n.int_digits ++ (n.frac_text ++ n.expo_text))

/-- The digits after the point of a numeral. -/
def numeral.frac_digits (n : numeral) : List Char :=
  match n.frac with
  | none => []
  | some fs => fs

/-- The exponent that the exponent part of a numeral denotes. -/
def numeral.expo_value (n : numeral) : Int :=
  match n.expo with
  | none => 0
  | some e => if e.2.1 = ['-'] then -(digits_value e.2.2 : Int) else (digits_value e.2.2 : Int)

/-- An exponent part is well formed when its marker is `e` or `E`, its sign is absent,
`+` or `-`, and it has at least one digit and only digits. -/
def expo_valid : Option (Char × List Char × List Char) → Prop
  | none => True
  | some e =>
    (e.1 = 'e' ∨ e.1 = 'E') ∧ (e.2.1 = [] ∨ e.2.1 = ['+'] ∨ e.2.1 = ['-'])
    ∧ e.2.2 ≠ [] ∧ ∀ c ∈ e.2.2, is_digit c

instance : (x : Option (Char × List Char × List Char)) → Decidable (expo_valid x)
  | none => isTrue trivial
  | some e =>
    inferInstanceAs (Decidable ((e.1 = 'e' ∨ e.1 = 'E')
      ∧ (e.2.1 = [] ∨ e.2.1 = ['+'] ∨ e.2.1 = ['-'])
      ∧ e.2.2 ≠ [] ∧ ∀ c ∈ e.2.2, is_digit c))

/-- A numeral is well formed when there is a digit before the point, all digit
strings consist of digits, and the exponent part, if any, is well formed. -/
def numeral.valid (n : numeral) : Prop :=
  n.int_digits ≠ [] ∧ (∀ c ∈ n.int_digits, is_digit c)
  ∧ (∀ c ∈ n.frac_digits, is_digit c)
  ∧ expo_valid n.expo

instance (n : numeral) : Decidable n.valid := by
  unfold numeral.valid
  infer_instance

/-- The number `(-1) ^ minus * significand * 10 ^ exponent` that a numeral denotes,
with the length of its text, as a token. -/
def numeral.token (n : numeral) : decimal_token :=
  ⟨n.minus, digits_value (n.int_digits ++ n.frac_digits),
    n.expo_value - (n.frac_digits.length : Int), n.text.length⟩

/-- A numeral written with `k` more zeros in front of its integer digits and `j` more
zeros in front of its exponent digits. -/
def numeral.pad (n : numeral) (k j : Nat) : numeral :=
  { n with
    int_digits := List.replicate k '0' ++ n.int_digits
    expo := n.expo.map (fun e => (e.1, e.2.1, List.replicate j '0' ++ e.2.2)) }

/-- Whether a format admits a numeral: scientific notation has an exponent part,
fixed notation has none, general notation is either. -/
def numeral.fits (n : numeral) (fmt : chars_format) : Prop :=
  fmt = chars_format.general
  ∨ (fmt = chars_format.scientific ∧ n.expo.isSome = true)
  ∨ (fmt = chars_format.fixed ∧ n.expo.isSome = false)

instance (n : numeral) (fmt : chars_format) : Decidable (n.fits fmt) := by
  unfold numeral.fits
  infer_instance

/-- Modelled from the spec: what the decimal engine does with the number
`(-1) ^ sign * significand * 10 ^ exponent` of a token once the text is read: its
status and its value.  A zero gives the zero of its sign; a non-zero magnitude in
range gives the nearest representable value with status success; outside the range
the status is result-out-of-range and the value is the infinity or the zero of the
sign. -/
def reference_conversion {T : Type} (C : FloatConsts T) (R : Rounding T)
    (sign : Bool) (significand : Nat) (exponent : Int) : errc × T :=
  if significand = 0 then (errc.success, if sign then C.neg C.zero else C.zero)
  else
    match R.classify significand exponent with
    | magnitude.in_range => (errc.success, R.nearest sign significand exponent)
    | magnitude.overflow =>
      (errc.result_out_of_range, if sign then C.neg C.infinity else C.infinity)
    | magnitude.underflow =>
      (errc.result_out_of_range, if sign then C.neg C.zero else C.zero)

/-- The range of IEEE binary64, the layout of `double`, under rounding to nearest
with ties to even: a non-zero magnitude `m * 10 ^ e` becomes infinite from
`2 ^ 1024 - 2 ^ 970` on (half a unit in the last place above the largest finite
value) and becomes zero up to `2 ^ (-1075)` (half the smallest subnormal). -/
def binary64_classify (m : Nat) (e : Int) : magnitude :=
  if 0 ≤ e then
    (if 2 ^ 1024 - 2 ^ 970 ≤ m * 10 ^ e.toNat then magnitude.overflow
     else magnitude.in_range)
  else if (2 ^ 1024 - 2 ^ 970) * 10 ^ (-e).toNat ≤ m then magnitude.overflow
  else if m * 2 ^ 1075 ≤ 10 ^ (-e).toNat then magnitude.underflow
  else magnitude.in_range

/-- Modelled from the spec: the width-specific composers `compute_float80` and
`compute_float128`, which are not part of the embedded files.  By the spec the
composer returns a value and a completion code: success with the correctly rounded
value; result-out-of-range when the magnitude overflows or underflows, having
saturated to the infinity or the zero of the given sign; and not-supported for an
input outside the coverage of its primary path.  Which inputs those are the spec
leaves open, so `covered` is a parameter. -/
def compute_float {T : Type} (C : FloatConsts T) (R : Rounding T)
    (covered : Int → Nat → Bool) : Composer T :=
  fun exponent significand sign _ =>
    if covered exponent significand = false then (C.zero, errc.not_supported)
    else
      match R.classify significand exponent with
      | magnitude.in_range => (R.nearest sign significand exponent, errc.success)
      | magnitude.overflow =>
        (if sign then C.neg C.infinity else C.infinity, errc.result_out_of_range)
      | magnitude.underflow =>
        (if sign then C.neg C.zero else C.zero, errc.result_out_of_range)

/-! ## The values of `double` and correct rounding

The rounding of the decimal engine is part of `fast_float::from_chars`, outside the
embedded files.  The definitions of this section carry out the rounding to nearest,
ties to even, that the spec gives as the engine's contract, and state the reference
conversion of the spec as a relation between a number and a `double`. -/

/-- A value of IEEE binary64, the layout of `double`: a finite value
`(-1) ^ sign * mantissa * 2 ^ exponent`, an infinity, or a NaN. -/
inductive binary64 where
  | finite (sign : Bool) (mantissa : Nat) (exponent : Int)
  | infinity (sign : Bool)
  | nan (signaling : Bool) (sign : Bool)
  deriving DecidableEq

/-- Unary minus on `binary64`: flips the sign. -/
def binary64.neg : binary64 → binary64
  | binary64.finite s m e => binary64.finite (!s) m e
  | binary64.infinity s => binary64.infinity (!s)
  | binary64.nan g s => binary64.nan g (!s)

/-- The constants of `binary64`; zero has the smallest exponent. -/
def binary64_consts : FloatConsts binary64 where
  infinity := binary64.infinity false
  quiet_NaN := binary64.nan false false
  signaling_NaN := binary64.nan true false
  zero := binary64.finite false 0 (-1074)
  neg := binary64.neg

/-- The quotient `a / b` rounded to the nearest natural number, to the even one when
two are equally near. -/
def round_half_even (a b : Nat) : Nat :=
  if 2 * (a % b) < b then a / b
  else if b < 2 * (a % b) then a / b + 1
  else if (a / b) % 2 = 0 then a / b
  else a / b + 1

/-- The number of binary digits of `n`, by halving at most `fuel` times. -/
def bit_length_aux : Nat → Nat → Nat
  | 0, _ => 0
  | fuel + 1, n => if n = 0 then 0 else bit_length_aux fuel (n / 2) + 1

/-- The number of binary digits of `n`; no number needs more than `n` halvings. -/
def bit_length (n : Nat) : Nat := bit_length_aux n n

/-- Modelled from the spec: the rounding step of the decimal engine for `double`,
which is not part of the embedded files; by the spec the engine rounds to the
nearest representable value, ties to even.  The magnitude `m * 10 ^ e` is written as
a quotient of natural numbers in units of `2 ^ (-1074)`, the smallest subnormal; the
quotient is scaled by the power of two that leaves 53 binary digits (none for a
subnormal) and rounded to the nearest integer, ties to even; a significand that
rounds up to `2 ^ 53` moves to the next exponent. -/
def binary64_nearest (sign : Bool) (m : Nat) (e : Int) : binary64 :=
  let n := if 0 ≤ e then m * 10 ^ e.toNat else m
  let d := if 0 ≤ e then 1 else 10 ^ (-e).toNat
  let a := n * 2 ^ 1074
  let t := bit_length (a / d) - 53
  let M := round_half_even a (d * 2 ^ t)
  if M = 2 ^ 53 then binary64.finite sign (2 ^ 52) ((t : Int) + 1 - 1074)
  else binary64.finite sign M ((t : Int) - 1074)

/-- The arithmetic of `double` for the decimal engine: the range of binary64 and
rounding to nearest, ties to even. -/
def binary64_rounding : Rounding binary64 where
  classify := binary64_classify
  nearest := binary64_nearest

/-- A significand and an exponent that a finite binary64 value can have. -/
def binary64_representable (M : Nat) (E : Int) : Prop :=
  M < 2 ^ 53 ∧ -1074 ≤ E ∧ E ≤ 971

/-- The significand and exponent of a finite binary64 value as it is encoded: the
significand has its leading bit set unless the exponent is the smallest one. -/
def binary64_canonical (M : Nat) (E : Int) : Prop :=
  binary64_representable M E ∧ (E = -1074 ∨ 2 ^ 52 ≤ M)

/-- Modelled from the spec: the reference correctly rounded conversion against which
the spec measures the fast path, as a relation between a number and a `double`.
`x` is a correctly rounded value of the number of sign `sign` and magnitude `q` when
`x` is finite with that sign, no representable magnitude is nearer to `q` than that of
`x`, and the significand of `x` is even whenever a different representable magnitude
is as near (ties to even). -/
def correctly_rounded (sign : Bool) (q : ℚ) (x : binary64) : Prop :=
  ∃ (M : Nat) (E : Int), x = binary64.finite sign M E ∧ binary64_canonical M E
    ∧ ∀ (M' : Nat) (E' : Int), binary64_representable M' E' →
      |q - M * 2 ^ E| ≤ |q - M' * 2 ^ E'|
      ∧ (|q - M * 2 ^ E| = |q - M' * 2 ^ E'| → (M : ℚ) * 2 ^ E ≠ M' * 2 ^ E' →
          M % 2 = 0)

end charconv

/-! ## A concrete platform

The parameters of the embedded functions instantiated by small executable
stand-ins, so that the statements below can be evaluated on explicit inputs. -/

namespace charconv.sample

/-- A symbolic floating-point value: a finite triple, an infinity, or a NaN. -/
inductive xfloat where
  | finite (sign : Bool) (significand : Nat) (exponent : Int)
  | inf (sign : Bool)
  | qnan (sign : Bool)
  | snan (sign : Bool)
  deriving DecidableEq

/-- Unary minus on `xfloat`: flips the sign. -/
def xfloat.neg : xfloat → xfloat
  | xfloat.finite s m e => xfloat.finite (!s) m e
  | xfloat.inf s => xfloat.inf (!s)
  | xfloat.qnan s => xfloat.qnan (!s)
  | xfloat.snan s => xfloat.snan (!s)

/-- The constants of `xfloat`. -/
def consts : FloatConsts xfloat where
  infinity := xfloat.inf false
  quiet_NaN := xfloat.qnan false
  signaling_NaN := xfloat.snan false
  zero := xfloat.finite false 0 0
  neg := xfloat.neg

/-- Reads a run of decimal digits: the accumulated value and the number of
characters read. -/
def digits : List Char → Nat → Nat → Nat × Nat
  | [], acc, n => (acc, n)
  | c :: cs, acc, n =>
    if 48 ≤ c.toNat ∧ c.toNat ≤ 57 then digits cs (10 * acc + (c.toNat - 48)) (n + 1)
    else (acc, n)

/-- A small decomposer: an optional `-`, then `inf`, `nan`, `nan(snan)` or a run
of decimal digits. -/
def tokenize : Parser := fun first chars sign significand exponent _ =>
  let minus := decide (chars.head? = some '-')
  let body := if minus then chars.tail else chars
  let start := if minus then first + 1 else first
  if body = ['i', 'n', 'f'] then
    ⟨⟨start + 3, errc.value_too_large⟩, minus, significand, exponent⟩
  else if body = ['n', 'a', 'n'] then
    ⟨⟨start + 3, errc.not_supported⟩, minus, 0, exponent⟩
  else if body = ['n', 'a', 'n', '(', 's', 'n', 'a', 'n', ')'] then
    ⟨⟨start + 9, errc.not_supported⟩, minus, 1, exponent⟩
  else
    let d := digits body 0 0
    if d.2 = 0 then ⟨⟨first, errc.invalid_argument⟩, sign, significand, exponent⟩
    else ⟨⟨start + d.2, errc.success⟩, minus, d.1, 0⟩

/-- A small composer: handles significands below `2 ^ 64` and reports
`not_supported` for the rest. -/
def compose : Composer xfloat := fun exponent significand sign code =>
  if significand < 2 ^ 64 then (xfloat.finite sign significand exponent, code)
  else (xfloat.finite false 0 0, errc.not_supported)

/-- A small fallback parser built on `tokenize`. -/
def strtod : Strtod xfloat := fun first chars value =>
  let p := tokenize first chars false 0 0 chars_format.general
  if p.r.ec = errc.success then
    (p.r, xfloat.finite p.sign p.significand p.exponent)
  else
    (⟨first, errc.invalid_argument⟩, value)

/-- A small decimal engine for the `float` and `double` overloads. -/
def decimal : FromChars xfloat := fun first chars value _ =>
  let p := tokenize first chars false 0 0 chars_format.general
  if p.r.ec = errc.success then
    (p.r, xfloat.finite p.sign p.significand p.exponent)
  else
    (⟨first, errc.invalid_argument⟩, value)

/-- A small hexadecimal engine: accepts nothing. -/
def hexadecimal : FromChars xfloat := fun first _ value _ =>
  (⟨first, errc.invalid_argument⟩, value)

/-- The wide `long double` overload on the sample platform. -/
def from_chars : FromChars xfloat :=
  from_chars_long_double consts tokenize compose strtod

/-- A single-precision-like range for `xfloat`: magnitudes from `2 ^ 128` on
overflow and magnitudes below `2 ^ (-149)` underflow.  Values in range are kept
as exact decimals. -/
def rounding : Rounding xfloat where
  classify := fun m e =>
    if 1000 < e then magnitude.overflow
    else if e < -1000 then magnitude.underflow
    else if 0 ≤ e then
      (if 2 ^ 128 ≤ m * 10 ^ e.toNat then magnitude.overflow else magnitude.in_range)
    else if 2 ^ 128 * 10 ^ (-e).toNat ≤ m then magnitude.overflow
    else if m * 2 ^ 149 < 10 ^ (-e).toNat then magnitude.underflow
    else magnitude.in_range
  nearest := fun s m e => xfloat.finite s m e

/-- The decimal engine of the spec on the sample platform. -/
def fast_float : FromChars xfloat :=
  charconv.fast_float.from_chars consts rounding

/-- A half-precision-like narrowing for `xfloat`: magnitudes from 65520 on
become the infinity of the same sign. -/
def narrow : xfloat → xfloat
  | xfloat.finite s m e =>
    if 1000 < e then xfloat.inf s
    else if 0 ≤ e then
      (if 65520 ≤ m * 10 ^ e.toNat then xfloat.inf s else xfloat.finite s m e)
    else if 65520 * 10 ^ (-e).toNat ≤ m then xfloat.inf s
    else xfloat.finite s m e
  | x => x

/-- A stand-in for the C library's `strtold` on signed decimal numerals: an optional
`+` or `-`, then a decimal numeral; the error indicator is set to 34 (`ERANGE`) on
overflow and is otherwise left as it was; without a numeral nothing is consumed
and 0 is returned. -/
def strtold : Strtold xfloat := fun nptr s errno =>
  let plus := decide (s.head? = some '+')
  let body := if plus then s.tail else s
  if plus ∧ body.head? = some '-' then (xfloat.finite false 0 0, nptr, errno)
  else
    match parse_decimal chars_format.general body with
    | none => (xfloat.finite false 0 0, nptr, errno)
    | some t =>
      if 4932 < t.exponent then
        (xfloat.inf t.sign, nptr + (if plus then 1 else 0) + t.length, 34)
      else
        (xfloat.finite t.sign t.significand t.exponent,
          nptr + (if plus then 1 else 0) + t.length, errno)

/-- The little-endian bytes of a number, `width` of them. -/
def le_bytes : Nat → Nat → Bytes
  | 0, _ => []
  | w + 1, v => ⟨v % 256, Nat.mod_lt v (by decide)⟩ :: le_bytes w (v / 256)

/-- A decimal engine on object representations of `width` bytes: an accepted
integer is stored as its little-endian bytes. -/
def bytes_engine (width : Nat) : FromChars Bytes := fun first chars value _ =>
  let p := tokenize first chars false 0 0 chars_format.general
  if p.r.ec = errc.success then (p.r, le_bytes width p.significand)
  else (⟨first, errc.invalid_argument⟩, value)

/-- The constants of a 16-byte type for the sample platform. -/
def bytes_consts : FloatConsts Bytes where
  infinity := le_bytes 16 (2 ^ 127 - 2 ^ 112)
  quiet_NaN := le_bytes 16 (2 ^ 127 - 2 ^ 111)
  signaling_NaN := le_bytes 16 (2 ^ 127 - 2 ^ 112 + 1)
  zero := le_bytes 16 0
  neg := fun b => b.take 15 ++ (b.drop 15).map (fun x => x + 128)

/-- A composer on 16-byte object representations. -/
def bytes_compose : Composer Bytes := fun _ significand _ code =>
  (le_bytes 16 significand, code)

/-- A fallback parser on 16-byte object representations: accepts nothing. -/
def bytes_strtod : Strtod Bytes := fun first _ value =>
  (⟨first, errc.invalid_argument⟩, value)

/-- The range of `double` for `xfloat`; values in range are kept as exact
decimals. -/
def rounding64 : Rounding xfloat where
  classify := binary64_classify
  nearest := fun s m e => xfloat.finite s m e

/-- The decimal engine of the spec for `double` on the sample platform. -/
def fast_double : FromChars xfloat :=
  charconv.fast_float.from_chars consts rounding64

/-- A small hexadecimal engine for `binary64`: accepts nothing. -/
def hexadecimal64 : FromChars binary64 := fun first _ value _ =>
  (⟨first, errc.invalid_argument⟩, value)

end charconv.sample

/-! ## Theorems -/

namespace charconv

/-- C1: for every width `T`, every range, format and prior destination value `v0`,
if `from_chars_strict` returns a status other than success then the destination
still holds `v0`. -/
theorem from_chars_strict_failure_keeps_destination {T : Type}
    (from_chars : FromChars T) (temp_value : T)
    (first : Ptr) (chars : List Char) (v0 : T) (fmt : chars_format)
    (h : (from_chars_strict from_chars temp_value first chars v0 fmt).1.ec ≠ errc.success) :
    (from_chars_strict from_chars temp_value first chars v0 fmt).2 = v0 := by
  unfold from_chars_strict from_chars_strict_impl at h ⊢
  by_cases hb : (from_chars first chars temp_value fmt).1.toBool = true
  · have hs : (from_chars first chars temp_value fmt).1.ec = errc.success := by
      simpa [from_chars_result.toBool] using hb
    simp [hb] at h
    exact absurd hs h
  · simp [hb]

/-- Witness for C1: on the sample platform the text `+1234.56789e+10` is rejected
and a destination preset to 3 keeps its value. -/
theorem from_chars_strict_failure_keeps_destination_witness :
    (from_chars_strict sample.from_chars (sample.xfloat.finite false 0 0) 100
        ['+', '1', '2', '3', '4', '.', '5', '6', '7', '8', '9', 'e', '+', '1', '0']
        (sample.xfloat.finite false 3 0) chars_format.general).1.ec ≠ errc.success
    ∧ (from_chars_strict sample.from_chars (sample.xfloat.finite false 0 0) 100
        ['+', '1', '2', '3', '4', '.', '5', '6', '7', '8', '9', 'e', '+', '1', '0']
        (sample.xfloat.finite false 3 0) chars_format.general).2
      = sample.xfloat.finite false 3 0 :=
  ⟨by decide,
   from_chars_strict_failure_keeps_destination sample.from_chars _ 100 _ _ _ (by decide)⟩

/-- C2: `from_chars_strict` returns the result (pointer and status) of the base
`from_chars` run on the private temporary for the same text and format; when that
status is success the destination holds the value the base operation parsed; and
the returned result is the same for every prior destination value. -/
theorem from_chars_strict_refines_from_chars {T : Type}
    (from_chars : FromChars T) (temp_value : T)
    (first : Ptr) (chars : List Char) (v0 : T) (fmt : chars_format) :
    (from_chars_strict from_chars temp_value first chars v0 fmt).1
        = (from_chars first chars temp_value fmt).1
    ∧ ((from_chars first chars temp_value fmt).1.ec = errc.success →
        (from_chars_strict from_chars temp_value first chars v0 fmt).2
          = (from_chars first chars temp_value fmt).2)
    ∧ ∀ v1 : T, (from_chars_strict from_chars temp_value first chars v1 fmt).1
        = (from_chars_strict from_chars temp_value first chars v0 fmt).1 := by
  have key : ∀ v : T, (from_chars_strict from_chars temp_value first chars v fmt).1
      = (from_chars first chars temp_value fmt).1 := by
    intro v
    unfold from_chars_strict from_chars_strict_impl
    by_cases hb : (from_chars first chars temp_value fmt).1.toBool = true <;> simp [hb]
  refine ⟨key v0, ?_, fun v1 => by rw [key v1, key v0]⟩
  intro hs
  unfold from_chars_strict from_chars_strict_impl
  simp [from_chars_result.toBool, hs]

/-- C3: `errno_to_errc` maps `EINVAL` to `invalid_argument`, `ERANGE` to
`result_out_of_range` and every other integer, 0 included, to success; its result
is success exactly when the argument is neither `EINVAL` nor `ERANGE`.  The
hypotheses record that the two macros are distinct and non-zero. -/
theorem errno_to_errc_spec (EINVAL ERANGE : Int)
    (hne : EINVAL ≠ ERANGE) (hI : EINVAL ≠ 0) (hR : ERANGE ≠ 0) :
    errno_to_errc EINVAL ERANGE EINVAL = errc.invalid_argument
    ∧ errno_to_errc EINVAL ERANGE ERANGE = errc.result_out_of_range
    ∧ (∀ n : Int, n ≠ EINVAL → n ≠ ERANGE → errno_to_errc EINVAL ERANGE n = errc.success)
    ∧ errno_to_errc EINVAL ERANGE 0 = errc.success
    ∧ ∀ n : Int, errno_to_errc EINVAL ERANGE n = errc.success ↔ (n ≠ EINVAL ∧ n ≠ ERANGE) := by
  refine ⟨?_, ?_, ?_, ?_, ?_⟩
  · simp [errno_to_errc]
  · simp [errno_to_errc, Ne.symm hne]
  · intro n h1 h2
    simp [errno_to_errc, h1, h2]
  · simp [errno_to_errc, Ne.symm hI, Ne.symm hR]
  · intro n
    unfold errno_to_errc
    by_cases h1 : n = EINVAL
    · simp [h1]
    · by_cases h2 : n = ERANGE
      · subst h2
        simp [Ne.symm hne]
      · simp [h1, h2]

/-- Witness for C3: the Linux values `EINVAL = 22` and `ERANGE = 34`. -/
theorem errno_to_errc_spec_witness :
    errno_to_errc 22 34 22 = errc.invalid_argument
    ∧ errno_to_errc 22 34 34 = errc.result_out_of_range
    ∧ (∀ n : Int, n ≠ 22 → n ≠ 34 → errno_to_errc 22 34 n = errc.success)
    ∧ errno_to_errc 22 34 0 = errc.success
    ∧ ∀ n : Int, errno_to_errc 22 34 n = errc.success ↔ (n ≠ 22 ∧ n ≠ 34) :=
  errno_to_errc_spec 22 34 (by decide) (by decide) (by decide)

/-- C4: for `float` and for `double`, when `fmt` is not hex `from_chars` returns the
result and value of `fast_float::from_chars` on the same arguments, and when `fmt`
is hex those of `from_chars_float_impl`; nothing else is applied. -/
theorem from_chars_float_double_delegates {float double : Type}
    (ff32 impl32 : FromChars float) (ff64 impl64 : FromChars double)
    (first : Ptr) (chars : List Char) (f : float) (d : double) (fmt : chars_format) :
    (fmt ≠ chars_format.hex →
        from_chars_float ff32 impl32 first chars f fmt = ff32 first chars f fmt
        ∧ from_chars_double ff64 impl64 first chars d fmt = ff64 first chars d fmt)
    ∧ (fmt = chars_format.hex →
        from_chars_float ff32 impl32 first chars f fmt = impl32 first chars f fmt
        ∧ from_chars_double ff64 impl64 first chars d fmt = impl64 first chars d fmt) := by
  constructor
  · intro h
    simp [from_chars_float, from_chars_double, h]
  · intro h
    simp [from_chars_float, from_chars_double, h]

/-- C5: in both extended-composition overloads, when the decomposer reports
`value_too_large` the destination becomes `+infinity` for a false sign and
`-infinity` for a true sign, the status is success, and the pointer is the
decomposer's; neither the composer nor the fallback contributes to the outcome. -/
theorem from_chars_extended_value_too_large {LD Q : Type}
    (L : FloatConsts LD) (Qc : FloatConsts Q) (parser : Parser)
    (compute_float80 : Composer LD) (compute_float128 : Composer Q)
    (strtod80 : Strtod LD) (strtod128 : Strtod Q)
    (first : Ptr) (chars : List Char) (vl : LD) (vq : Q) (fmt : chars_format)
    (p : parser_result) (hp : parser first chars false 0 0 fmt = p)
    (h : p.r.ec = errc.value_too_large) :
    from_chars_long_double L parser compute_float80 strtod80 first chars vl fmt
        = (⟨p.r.ptr, errc.success⟩, if p.sign = true then L.neg L.infinity else L.infinity)
    ∧ from_chars_float128 Qc parser compute_float128 strtod128 first chars vq fmt
        = (⟨p.r.ptr, errc.success⟩,
            if p.sign = true then Qc.neg Qc.infinity else Qc.infinity) := by
  subst hp
  constructor
  · simp [from_chars_long_double, h]
  · simp [from_chars_float128, h]

/-- Witness for C5: `-inf` on the sample platform. -/
theorem from_chars_extended_value_too_large_witness :
    sample.from_chars 100 ['-', 'i', 'n', 'f'] (sample.xfloat.finite false 3 0)
        chars_format.general
      = (⟨104, errc.success⟩, sample.xfloat.inf true) :=
  (from_chars_extended_value_too_large sample.consts sample.consts sample.tokenize
    sample.compose sample.compose sample.strtod sample.strtod 100 ['-', 'i', 'n', 'f']
    (sample.xfloat.finite false 3 0) (sample.xfloat.finite false 3 0)
    chars_format.general _ rfl (by decide)).1

/-- C6: in both extended-composition overloads, when the decomposer reports
`not_supported` the status is success and the destination is a NaN: quiet when the
carried significand is 0 and signaling otherwise, negated exactly when the sign is
true.  The kind of NaN is chosen by the significand alone and the negation by the
sign alone. -/
theorem from_chars_extended_not_supported {LD Q : Type}
    (L : FloatConsts LD) (Qc : FloatConsts Q) (parser : Parser)
    (compute_float80 : Composer LD) (compute_float128 : Composer Q)
    (strtod80 : Strtod LD) (strtod128 : Strtod Q)
    (first : Ptr) (chars : List Char) (vl : LD) (vq : Q) (fmt : chars_format)
    (p : parser_result) (hp : parser first chars false 0 0 fmt = p)
    (h : p.r.ec = errc.not_supported) :
    from_chars_long_double L parser compute_float80 strtod80 first chars vl fmt
        = (⟨p.r.ptr, errc.success⟩,
            if p.sign = true
            then L.neg (if p.significand = 0 then L.quiet_NaN else L.signaling_NaN)
            else (if p.significand = 0 then L.quiet_NaN else L.signaling_NaN))
    ∧ from_chars_float128 Qc parser compute_float128 strtod128 first chars vq fmt
        = (⟨p.r.ptr, errc.success⟩,
            if p.sign = true
            then Qc.neg (if p.significand = 0 then Qc.quiet_NaN else Qc.signaling_NaN)
            else (if p.significand = 0 then Qc.quiet_NaN else Qc.signaling_NaN)) := by
  subst hp
  constructor
  · by_cases hz : (parser first chars false 0 0 fmt).significand = 0 <;>
      simp [from_chars_long_double, h, hz]
  · by_cases hz : (parser first chars false 0 0 fmt).significand = 0 <;>
      simp [from_chars_float128, h, hz]

/-- Witness for C6: `-nan(snan)` on the sample platform carries a non-zero
significand and yields a negated signaling NaN. -/
theorem from_chars_extended_not_supported_witness :
    sample.from_chars 100 ['-', 'n', 'a', 'n', '(', 's', 'n', 'a', 'n', ')']
        (sample.xfloat.finite false 3 0) chars_format.general
      = (⟨110, errc.success⟩, sample.xfloat.snan true) :=
  (from_chars_extended_not_supported sample.consts sample.consts sample.tokenize
    sample.compose sample.compose sample.strtod sample.strtod 100
    ['-', 'n', 'a', 'n', '(', 's', 'n', 'a', 'n', ')']
    (sample.xfloat.finite false 3 0) (sample.xfloat.finite false 3 0)
    chars_format.general _ rfl (by decide)).1

/-- C7: in both extended-composition overloads, when the decomposer returns a
status that is neither success nor one of the sentinels `value_too_large` and
`not_supported`, its result (pointer and status) is returned unchanged and the
destination keeps its prior value; neither the composer nor the fallback
contributes to the outcome. -/
theorem from_chars_extended_error_propagates {LD Q : Type}
    (L : FloatConsts LD) (Qc : FloatConsts Q) (parser : Parser)
    (compute_float80 : Composer LD) (compute_float128 : Composer Q)
    (strtod80 : Strtod LD) (strtod128 : Strtod Q)
    (first : Ptr) (chars : List Char) (vl : LD) (vq : Q) (fmt : chars_format)
    (p : parser_result) (hp : parser first chars false 0 0 fmt = p)
    (h0 : p.r.ec ≠ errc.success) (h1 : p.r.ec ≠ errc.value_too_large)
    (h2 : p.r.ec ≠ errc.not_supported) :
    from_chars_long_double L parser compute_float80 strtod80 first chars vl fmt = (p.r, vl)
    ∧ from_chars_float128 Qc parser compute_float128 strtod128 first chars vq fmt
        = (p.r, vq) := by
  subst hp
  constructor
  · simp [from_chars_long_double, h0, h1, h2]
  · simp [from_chars_float128, h0, h1, h2]

/-- Witness for C7: the sample decomposer rejects `+12` with `invalid_argument`. -/
theorem from_chars_extended_error_propagates_witness :
    sample.from_chars 100 ['+', '1', '2'] (sample.xfloat.finite false 3 0)
        chars_format.general
      = (⟨100, errc.invalid_argument⟩, sample.xfloat.finite false 3 0) :=
  (from_chars_extended_error_propagates sample.consts sample.consts sample.tokenize
    sample.compose sample.compose sample.strtod sample.strtod 100 ['+', '1', '2']
    (sample.xfloat.finite false 3 0) (sample.xfloat.finite false 3 0)
    chars_format.general _ rfl (by decide) (by decide) (by decide)).1

/-- C8: in both extended-composition overloads, when the decomposer succeeds with
significand 0 the destination becomes `+0` for a false sign and `-0` for a true
sign, the status is success and the pointer is the decomposer's, whatever the
exponent; the composer does not contribute to the outcome. -/
theorem from_chars_extended_zero {LD Q : Type}
    (L : FloatConsts LD) (Qc : FloatConsts Q) (parser : Parser)
    (compute_float80 : Composer LD) (compute_float128 : Composer Q)
    (strtod80 : Strtod LD) (strtod128 : Strtod Q)
    (first : Ptr) (chars : List Char) (vl : LD) (vq : Q) (fmt : chars_format)
    (p : parser_result) (hp : parser first chars false 0 0 fmt = p)
    (h : p.r.ec = errc.success) (hz : p.significand = 0) :
    from_chars_long_double L parser compute_float80 strtod80 first chars vl fmt
        = (⟨p.r.ptr, errc.success⟩, if p.sign = true then L.neg L.zero else L.zero)
    ∧ from_chars_float128 Qc parser compute_float128 strtod128 first chars vq fmt
        = (⟨p.r.ptr, errc.success⟩, if p.sign = true then Qc.neg Qc.zero else Qc.zero) := by
  subst hp
  have hr : (parser first chars false 0 0 fmt).r
      = ⟨(parser first chars false 0 0 fmt).r.ptr, errc.success⟩ := by
    rw [← h]
  constructor
  · simp only [from_chars_long_double, h, hz]
    simp [← hr]
  · simp only [from_chars_float128, h, hz]
    simp [← hr]

/-- Witness for C8: `-0` on the sample platform. -/
theorem from_chars_extended_zero_witness :
    sample.from_chars 100 ['-', '0'] (sample.xfloat.finite false 3 0)
        chars_format.general
      = (⟨102, errc.success⟩, sample.xfloat.finite true 0 0) :=
  (from_chars_extended_zero sample.consts sample.consts sample.tokenize
    sample.compose sample.compose sample.strtod sample.strtod 100 ['-', '0']
    (sample.xfloat.finite false 3 0) (sample.xfloat.finite false 3 0)
    chars_format.general _ rfl (by decide) (by decide)).1

/-- C9: in both extended-composition overloads, when the decomposer succeeds with
a non-zero significand and the composer returns completion code `c` that is
success or `result_out_of_range`, the destination receives the composer's value and
the returned result is the decomposer's pointer with status `c`. -/
theorem from_chars_extended_composer_accepted {LD Q : Type}
    (L : FloatConsts LD) (Qc : FloatConsts Q) (parser : Parser)
    (compute_float80 : Composer LD) (compute_float128 : Composer Q)
    (strtod80 : Strtod LD) (strtod128 : Strtod Q)
    (first : Ptr) (chars : List Char) (vl : LD) (vq : Q) (fmt : chars_format)
    (p : parser_result) (hp : parser first chars false 0 0 fmt = p)
    (h : p.r.ec = errc.success) (hnz : p.significand ≠ 0) :
    (∀ c : errc, (compute_float80 p.exponent p.significand p.sign errc.success).2 = c →
        (c = errc.success ∨ c = errc.result_out_of_range) →
        from_chars_long_double L parser compute_float80 strtod80 first chars vl fmt
          = (⟨p.r.ptr, c⟩,
              (compute_float80 p.exponent p.significand p.sign errc.success).1))
    ∧ (∀ c : errc, (compute_float128 p.exponent p.significand p.sign errc.success).2 = c →
        (c = errc.success ∨ c = errc.result_out_of_range) →
        from_chars_float128 Qc parser compute_float128 strtod128 first chars vq fmt
          = (⟨p.r.ptr, c⟩,
              (compute_float128 p.exponent p.significand p.sign errc.success).1)) := by
  subst hp
  constructor
  · intro c hc hcase
    simp only [from_chars_long_double, h, hnz, hc]
    rcases hcase with rfl | rfl <;> simp
  · intro c hc hcase
    simp only [from_chars_float128, h, hnz, hc]
    rcases hcase with rfl | rfl <;> simp

/-- Witness for C9: `-12` on the sample platform is composed with code success. -/
theorem from_chars_extended_composer_accepted_witness :
    sample.from_chars 100 ['-', '1', '2'] (sample.xfloat.finite false 3 0)
        chars_format.general
      = (⟨103, errc.success⟩, sample.xfloat.finite true 12 0) :=
  (from_chars_extended_composer_accepted sample.consts sample.consts sample.tokenize
    sample.compose sample.compose sample.strtod sample.strtod 100 ['-', '1', '2']
    (sample.xfloat.finite false 3 0) (sample.xfloat.finite false 3 0)
    chars_format.general _ rfl (by decide) (by decide)).1 errc.success rfl (Or.inl rfl)

/-- C10: in both extended-composition overloads, when the decomposer succeeds with
a non-zero significand and the composer returns completion code `not_supported`,
the outcome (pointer, status and destination) is exactly that of
`from_chars_strtod` applied to the original range and the untouched destination;
the composer's value is not written. -/
theorem from_chars_extended_fallback {LD Q : Type}
    (L : FloatConsts LD) (Qc : FloatConsts Q) (parser : Parser)
    (compute_float80 : Composer LD) (compute_float128 : Composer Q)
    (strtod80 : Strtod LD) (strtod128 : Strtod Q)
    (first : Ptr) (chars : List Char) (vl : LD) (vq : Q) (fmt : chars_format)
    (p : parser_result) (hp : parser first chars false 0 0 fmt = p)
    (h : p.r.ec = errc.success) (hnz : p.significand ≠ 0) :
    ((compute_float80 p.exponent p.significand p.sign errc.success).2 = errc.not_supported →
        from_chars_long_double L parser compute_float80 strtod80 first chars vl fmt
          = strtod80 first chars vl)
    ∧ ((compute_float128 p.exponent p.significand p.sign errc.success).2
          = errc.not_supported →
        from_chars_float128 Qc parser compute_float128 strtod128 first chars vq fmt
          = strtod128 first chars vq) := by
  subst hp
  constructor
  · intro hc
    simp [from_chars_long_double, h, hnz, hc]
  · intro hc
    simp [from_chars_float128, h, hnz, hc]

/-- Witness for C10: `18446744073709551616` (that is `2 ^ 64`) is outside the sample
composer's coverage and is handed to the sample fallback. -/
theorem from_chars_extended_fallback_witness :
    sample.from_chars 100
        ['1', '8', '4', '4', '6', '7', '4', '4', '0', '7', '3', '7', '0', '9', '5', '5', '1',
          '6', '1', '6']
        (sample.xfloat.finite false 3 0) chars_format.general
      = sample.strtod 100
        ['1', '8', '4', '4', '6', '7', '4', '4', '0', '7', '3', '7', '0', '9', '5', '5', '1',
          '6', '1', '6']
        (sample.xfloat.finite false 3 0) :=
  (from_chars_extended_fallback sample.consts sample.consts sample.tokenize
    sample.compose sample.compose sample.strtod sample.strtod 100
    ['1', '8', '4', '4', '6', '7', '4', '4', '0', '7', '3', '7', '0', '9', '5', '5', '1',
      '6', '1', '6']
    (sample.xfloat.finite false 3 0) (sample.xfloat.finite false 3 0)
    chars_format.general _ rfl (by decide) (by decide)).1 (by decide)

/-- Copying a whole object over an object of the same size yields the source. -/
theorem memcpy_whole (dest src : Bytes) (n : Nat)
    (hs : src.length = n) (hd : dest.length = n) : memcpy dest src n = src := by
  unfold memcpy
  rw [List.take_of_length_le (le_of_eq hs), List.drop_of_length_le (le_of_eq hd)]
  simp

/-- C13: on a platform where an exact-width alias and its native counterpart have
the same size, parsing into the alias (`std::float32_t`, `std::float64_t`,
`std::float128_t`) returns the result of parsing the same text into the native type
(`float`, `double`, `__float128`) holding the same bytes, and leaves the alias with
exactly the bytes the native destination ends with. -/
theorem from_chars_alias_bit_copy (n32 n64 n128 : Nat)
    (ff32 impl32 ff64 impl64 : FromChars Bytes)
    (Q : FloatConsts Bytes) (parser : Parser) (compute_float128 : Composer Bytes)
    (from_chars_strtod : Strtod Bytes)
    (first : Ptr) (chars : List Char) (fmt : chars_format)
    (f d q v32 v64 v128 : Bytes) :
    (v32.length = n32 → f.length = n32 →
        (from_chars_float ff32 impl32 first chars v32 fmt).2.length = n32 →
        from_chars_float32_t n32 n32 ff32 impl32 f first chars v32 fmt
          = from_chars_float ff32 impl32 first chars v32 fmt)
    ∧ (v64.length = n64 → d.length = n64 →
        (from_chars_double ff64 impl64 first chars v64 fmt).2.length = n64 →
        from_chars_float64_t n64 n64 ff64 impl64 d first chars v64 fmt
          = from_chars_double ff64 impl64 first chars v64 fmt)
    ∧ (v128.length = n128 → q.length = n128 →
        (from_chars_float128 Q parser compute_float128 from_chars_strtod first chars v128
          fmt).2.length = n128 →
        from_chars_float128_t n128 n128 Q parser compute_float128 from_chars_strtod q
            first chars v128 fmt
          = from_chars_float128 Q parser compute_float128 from_chars_strtod first chars
              v128 fmt) := by
  refine ⟨?_, ?_, ?_⟩
  · intro hv hf hout
    simp only [from_chars_float32_t]
    rw [memcpy_whole f v32 n32 hv hf, memcpy_whole v32 _ n32 hout hv]
  · intro hv hd hout
    simp only [from_chars_float64_t]
    rw [memcpy_whole d v64 n64 hv hd, memcpy_whole v64 _ n64 hout hv]
  · intro hv hq hout
    simp only [from_chars_float128_t]
    rw [memcpy_whole q v128 n128 hv hq, memcpy_whole v128 _ n128 hout hv]

/-- Witness for C13: `12` parsed into a 4-byte alias, an 8-byte alias and a 16-byte
alias on the sample platform. -/
theorem from_chars_alias_bit_copy_witness :
    from_chars_float32_t 4 4 (sample.bytes_engine 4) (sample.bytes_engine 4)
        [1, 2, 3, 4] 100 ['1', '2'] [0, 0, 64, 64] chars_format.general
      = (⟨102, errc.success⟩, [12, 0, 0, 0])
    ∧ from_chars_float64_t 8 8 (sample.bytes_engine 8) (sample.bytes_engine 8)
        [1, 2, 3, 4, 5, 6, 7, 8] 100 ['1', '2'] [0, 0, 0, 0, 0, 0, 8, 64]
        chars_format.general
      = (⟨102, errc.success⟩, [12, 0, 0, 0, 0, 0, 0, 0])
    ∧ from_chars_float128_t 16 16 sample.bytes_consts sample.tokenize sample.bytes_compose
        sample.bytes_strtod (sample.le_bytes 16 7) 100 ['1', '2'] (sample.le_bytes 16 3)
        chars_format.general
      = (⟨102, errc.success⟩, sample.le_bytes 16 12) :=
  ⟨((from_chars_alias_bit_copy 4 8 16 (sample.bytes_engine 4) (sample.bytes_engine 4)
      (sample.bytes_engine 8) (sample.bytes_engine 8) sample.bytes_consts sample.tokenize
      sample.bytes_compose sample.bytes_strtod 100 ['1', '2'] chars_format.general
      [1, 2, 3, 4] [1, 2, 3, 4, 5, 6, 7, 8] (sample.le_bytes 16 7) [0, 0, 64, 64]
      [0, 0, 0, 0, 0, 0, 8, 64] (sample.le_bytes 16 3)).1
      (by decide) (by decide) (by decide)).trans (by decide),
   ((from_chars_alias_bit_copy 4 8 16 (sample.bytes_engine 4) (sample.bytes_engine 4)
      (sample.bytes_engine 8) (sample.bytes_engine 8) sample.bytes_consts sample.tokenize
      sample.bytes_compose sample.bytes_strtod 100 ['1', '2'] chars_format.general
      [1, 2, 3, 4] [1, 2, 3, 4, 5, 6, 7, 8] (sample.le_bytes 16 7) [0, 0, 64, 64]
      [0, 0, 0, 0, 0, 0, 8, 64] (sample.le_bytes 16 3)).2.1
      (by decide) (by decide) (by decide)).trans (by decide),
   ((from_chars_alias_bit_copy 4 8 16 (sample.bytes_engine 4) (sample.bytes_engine 4)
      (sample.bytes_engine 8) (sample.bytes_engine 8) sample.bytes_consts sample.tokenize
      sample.bytes_compose sample.bytes_strtod 100 ['1', '2'] chars_format.general
      [1, 2, 3, 4] [1, 2, 3, 4, 5, 6, 7, 8] (sample.le_bytes 16 7) [0, 0, 64, 64]
      [0, 0, 0, 0, 0, 0, 8, 64] (sample.le_bytes 16 3)).2.2
      (by decide) (by decide) (by decide)).trans (by decide)⟩

/-- C14: on a platform where `long double` has the size of `double`, parsing into a
`long double` returns the result of parsing the same text into a `double` holding
the same bytes, and the `long double` ends with exactly the bytes the `double`
ends with. -/
theorem from_chars_long_double_64_bit_copy (n : Nat)
    (ff64 impl64 : FromChars Bytes)
    (first : Ptr) (chars : List Char) (fmt : chars_format) (d value : Bytes)
    (hv : value.length = n) (hd : d.length = n)
    (hout : (from_chars_double ff64 impl64 first chars value fmt).2.length = n) :
    from_chars_long_double_64 n n ff64 impl64 d first chars value fmt
      = from_chars_double ff64 impl64 first chars value fmt := by
  simp only [from_chars_long_double_64]
  rw [memcpy_whole d value n hv hd, memcpy_whole value _ n hout hv]

/-- Witness for C14: `12` parsed into an 8-byte `long double` on the sample
platform. -/
theorem from_chars_long_double_64_bit_copy_witness :
    from_chars_long_double_64 8 8 (sample.bytes_engine 8) (sample.bytes_engine 8)
        [1, 2, 3, 4, 5, 6, 7, 8] 100 ['1', '2'] [0, 0, 0, 0, 0, 0, 8, 64]
        chars_format.general
      = from_chars_double (sample.bytes_engine 8) (sample.bytes_engine 8) 100 ['1', '2']
        [0, 0, 0, 0, 0, 0, 8, 64] chars_format.general :=
  from_chars_long_double_64_bit_copy 8 (sample.bytes_engine 8) (sample.bytes_engine 8)
    100 ['1', '2'] chars_format.general [1, 2, 3, 4, 5, 6, 7, 8]
    [0, 0, 0, 0, 0, 0, 8, 64] (by decide) (by decide) (by decide)

/-- C15: for half and brain-half destinations `from_chars` returns the result
(pointer and status) of the single-precision `from_chars` on the same text and
format, and when that status is success the destination is the single-precision
value narrowed to the target width; the narrowing leaves the status alone, so a
successful parse whose value the narrowing turns into infinity yields infinity
with status success. -/
theorem from_chars_half_narrows {float float16_t bfloat16_t : Type}
    (ff32 impl32 : FromChars float)
    (narrow16 : float → float16_t) (narrowb16 : float → bfloat16_t)
    (first : Ptr) (chars : List Char) (fmt : chars_format)
    (f : float) (h0 : float16_t) (b0 : bfloat16_t) :
    (from_chars_float16 ff32 impl32 narrow16 f first chars h0 fmt).1
        = (from_chars_float ff32 impl32 first chars f fmt).1
    ∧ (from_chars_bfloat16 ff32 impl32 narrowb16 f first chars b0 fmt).1
        = (from_chars_float ff32 impl32 first chars f fmt).1
    ∧ ((from_chars_float ff32 impl32 first chars f fmt).1.ec = errc.success →
        (from_chars_float16 ff32 impl32 narrow16 f first chars h0 fmt).2
            = narrow16 (from_chars_float ff32 impl32 first chars f fmt).2
        ∧ (from_chars_bfloat16 ff32 impl32 narrowb16 f first chars b0 fmt).2
            = narrowb16 (from_chars_float ff32 impl32 first chars f fmt).2) := by
  refine ⟨?_, ?_, ?_⟩
  · unfold from_chars_float16
    by_cases hs : (from_chars_float ff32 impl32 first chars f fmt).1.ec = errc.success <;>
      simp [hs]
  · unfold from_chars_bfloat16
    by_cases hs : (from_chars_float ff32 impl32 first chars f fmt).1.ec = errc.success <;>
      simp [hs]
  · intro hs
    simp [from_chars_float16, from_chars_bfloat16, hs]

/-- Witness for C15: `1e10` on the sample platform parses with success as a single
and narrows to `+infinity`. -/
theorem from_chars_half_narrows_witness :
    (from_chars_float16 sample.fast_float sample.hexadecimal sample.narrow
        (sample.xfloat.finite false 0 0) 100 ['1', 'e', '1', '0']
        (sample.xfloat.finite false 3 0) chars_format.general).1
      = ⟨104, errc.success⟩
    ∧ (from_chars_float16 sample.fast_float sample.hexadecimal sample.narrow
        (sample.xfloat.finite false 0 0) 100 ['1', 'e', '1', '0']
        (sample.xfloat.finite false 3 0) chars_format.general).2
      = sample.xfloat.inf false :=
  ⟨(from_chars_half_narrows sample.fast_float sample.hexadecimal sample.narrow
      sample.narrow 100 ['1', 'e', '1', '0'] chars_format.general
      (sample.xfloat.finite false 0 0) (sample.xfloat.finite false 3 0)
      (sample.xfloat.finite false 3 0)).1.trans (by decide),
   ((from_chars_half_narrows sample.fast_float sample.hexadecimal sample.narrow
      sample.narrow 100 ['1', 'e', '1', '0'] chars_format.general
      (sample.xfloat.finite false 0 0) (sample.xfloat.finite false 3 0)
      (sample.xfloat.finite false 3 0)).2.2 (by decide)).1.trans (by decide)⟩

/-- C16: the `strtold`-based `long double` overload on `+1234.56789e+10`, in general
format and with a clear error indicator.  The C library's `strtold` accepts a
leading `+` and converts the whole text to some value `x`; the overload then
returns success, not invalid-argument, and the destination holds `x`, not its
prior value. -/
theorem from_chars_long_double_strtold_plus_sign {T : Type} (EINVAL ERANGE : Int)
    (strtold : Strtold T) (tmp_data first : Ptr) (v0 x : T)
    (hI : EINVAL ≠ 0) (hR : ERANGE ≠ 0)
    (hlibc : strtold tmp_data
        ['+', '1', '2', '3', '4', '.', '5', '6', '7', '8', '9', 'e', '+', '1', '0'] 0
      = (x, tmp_data + 15, 0)) :
    from_chars_long_double_strtold EINVAL ERANGE strtold tmp_data 0 first
        ['+', '1', '2', '3', '4', '.', '5', '6', '7', '8', '9', 'e', '+', '1', '0']
        v0 chars_format.general
      = ((⟨tmp_data + 15, errc.success⟩, x), 0) := by
  have hc : c_str ['+', '1', '2', '3', '4', '.', '5', '6', '7', '8', '9', 'e', '+', '1', '0']
      = ['+', '1', '2', '3', '4', '.', '5', '6', '7', '8', '9', 'e', '+', '1', '0'] := by
    decide
  simp only [from_chars_long_double_strtold, hc, hlibc]
  simp [errno_to_errc, Ne.symm hI, Ne.symm hR]

/-- Witness for C16: with the sample `strtold` and a destination preset to 3, the
text `+1234.56789e+10` gives success and the value `123456789 * 10 ^ 5`. -/
theorem from_chars_long_double_strtold_plus_sign_witness :
    from_chars_long_double_strtold 22 34 sample.strtold 5000 0 100
        ['+', '1', '2', '3', '4', '.', '5', '6', '7', '8', '9', 'e', '+', '1', '0']
        (sample.xfloat.finite false 3 0) chars_format.general
      = ((⟨5015, errc.success⟩, sample.xfloat.finite false 123456789 5), 0) :=
  from_chars_long_double_strtold_plus_sign 22 34 sample.strtold 5000 100
    (sample.xfloat.finite false 3 0) (sample.xfloat.finite false 123456789 5)
    (by decide) (by decide) (by decide)

/-- C17: the `strtold`-based `long double` overload on the digit string `12` when the
error indicator holds `ERANGE` on entry.  The C library's `strtold` converts the
text to some value `x` and leaves the indicator alone; the overload then returns
result-out-of-range, not success, although the destination holds `x`. -/
theorem from_chars_long_double_strtold_stale_errno {T : Type} (EINVAL ERANGE : Int)
    (strtold : Strtold T) (tmp_data first : Ptr) (v0 x : T)
    (hne : EINVAL ≠ ERANGE)
    (hlibc : strtold tmp_data ['1', '2'] ERANGE = (x, tmp_data + 2, ERANGE)) :
    from_chars_long_double_strtold EINVAL ERANGE strtold tmp_data ERANGE first
        ['1', '2'] v0 chars_format.general
      = ((⟨tmp_data + 2, errc.result_out_of_range⟩, x), ERANGE) := by
  have hc : c_str ['1', '2'] = ['1', '2'] := by decide
  simp only [from_chars_long_double_strtold, hc, hlibc]
  simp [errno_to_errc, Ne.symm hne]

/-- Witness for C17: with the sample `strtold` and the error indicator at 34, the
text `12` gives the value 12 with status result-out-of-range. -/
theorem from_chars_long_double_strtold_stale_errno_witness :
    from_chars_long_double_strtold 22 34 sample.strtold 5000 34 100 ['1', '2']
        (sample.xfloat.finite false 0 0) chars_format.general
      = ((⟨5002, errc.result_out_of_range⟩, sample.xfloat.finite false 12 0), 34) :=
  from_chars_long_double_strtold_stale_errno 22 34 sample.strtold 5000 100
    (sample.xfloat.finite false 0 0) (sample.xfloat.finite false 12 0)
    (by decide) (by decide)

/-- C18: the `strtold`-based `long double` overload on `-2a` with `fmt = hex` and a
clear error indicator.  The format is not passed on, and the C library's `strtold`
reads the decimal numeral `-2` and stops at `a`, returning some value `x`; the
overload then returns success with the destination holding `x`, the value of
`-2`, not of the base-16 numeral. -/
theorem from_chars_long_double_strtold_hex {T : Type} (EINVAL ERANGE : Int)
    (strtold : Strtold T) (tmp_data first : Ptr) (v0 x : T)
    (hI : EINVAL ≠ 0) (hR : ERANGE ≠ 0)
    (hlibc : strtold tmp_data ['-', '2', 'a'] 0 = (x, tmp_data + 2, 0)) :
    from_chars_long_double_strtold EINVAL ERANGE strtold tmp_data 0 first
        ['-', '2', 'a'] v0 chars_format.hex
      = ((⟨tmp_data + 2, errc.success⟩, x), 0) := by
  have hc : c_str ['-', '2', 'a'] = ['-', '2', 'a'] := by decide
  simp only [from_chars_long_double_strtold, hc, hlibc]
  simp [errno_to_errc, Ne.symm hI, Ne.symm hR]

/-- Witness for C18: with the sample `strtold`, the text `-2a` in hex format gives
success and the value `-2`. -/
theorem from_chars_long_double_strtold_hex_witness :
    from_chars_long_double_strtold 22 34 sample.strtold 5000 0 100 ['-', '2', 'a']
        (sample.xfloat.finite false 0 0) chars_format.hex
      = ((⟨5002, errc.success⟩, sample.xfloat.finite true 2 0), 0) :=
  from_chars_long_double_strtold_hex 22 34 sample.strtold 5000 100
    (sample.xfloat.finite false 0 0) (sample.xfloat.finite true 2 0)
    (by decide) (by decide) (by decide)

/-- A decimal token carries a set sign exactly when the text starts with `-`. -/
theorem parse_decimal_sign (fmt : chars_format) (chars : List Char) (t : decimal_token)
    (h : parse_decimal fmt chars = some t) :
    t.sign = decide (chars.head? = some '-') := by
  unfold parse_decimal at h
  simp only [] at h
  split_ifs at h <;> cases fmt <;> simp only [] at h <;>
    first
    | (split at h <;> cases h <;> rfl)
    | (cases h <;> rfl)

/-- A text that starts with an exponent marker holds no decimal token. -/
theorem parse_decimal_marker (c : Char) (rest : List Char) (hc : c = 'e' ∨ c = 'E') :
    parse_decimal chars_format.general (c :: rest) = none := by
  rcases hc with rfl | rfl <;> simp [parse_decimal, scan_digits]

/-- C19: against the decimal engine as the spec describes it, the `float` and the
`double` overload in general format turn each of `0e0`, `0.0` and `0` into the zero
with the sign clear and each of `-0e0`, `-0.0` and `-0` into the zero with the
sign set, with status success; and every token of value zero gives the zero
whose sign is set exactly when the text starts with `-`. -/
theorem from_chars_signed_zero {T : Type} (C : FloatConsts T) (R : Rounding T)
    (impl32 impl64 : FromChars T) (fc : FromChars T)
    (hfc : fc = from_chars_float (fast_float.from_chars C R) impl32
        ∨ fc = from_chars_double (fast_float.from_chars C R) impl64)
    (first : Ptr) (v : T) :
    fc first ['0', 'e', '0'] v chars_format.general = (⟨first + 3, errc.success⟩, C.zero)
    ∧ fc first ['0', '.', '0'] v chars_format.general = (⟨first + 3, errc.success⟩, C.zero)
    ∧ fc first ['0'] v chars_format.general = (⟨first + 1, errc.success⟩, C.zero)
    ∧ fc first ['-', '0', 'e', '0'] v chars_format.general
        = (⟨first + 4, errc.success⟩, C.neg C.zero)
    ∧ fc first ['-', '0', '.', '0'] v chars_format.general
        = (⟨first + 4, errc.success⟩, C.neg C.zero)
    ∧ fc first ['-', '0'] v chars_format.general = (⟨first + 2, errc.success⟩, C.neg C.zero)
    ∧ ∀ (chars : List Char) (t : decimal_token),
        parse_decimal chars_format.general chars = some t → t.significand = 0 →
        fc first chars v chars_format.general
          = (⟨first + t.length, errc.success⟩,
              if chars.head? = some '-' then C.neg C.zero else C.zero) := by
  have key : ∀ (chars : List Char) (t : decimal_token),
      parse_decimal chars_format.general chars = some t → t.significand = 0 →
      fc first chars v chars_format.general
        = (⟨first + t.length, errc.success⟩,
            if chars.head? = some '-' then C.neg C.zero else C.zero) := by
    intro chars t ht hz
    have hs := parse_decimal_sign _ _ _ ht
    rcases hfc with rfl | rfl
    · simp [from_chars_float, fast_float.from_chars, ht, hz, hs]
    · simp [from_chars_double, fast_float.from_chars, ht, hz, hs]
  refine ⟨?_, ?_, ?_, ?_, ?_, ?_, key⟩
  · exact key ['0', 'e', '0'] ⟨false, 0, 0, 3⟩ (by decide) rfl
  · exact key ['0', '.', '0'] ⟨false, 0, -1, 3⟩ (by decide) rfl
  · exact key ['0'] ⟨false, 0, 0, 1⟩ (by decide) rfl
  · exact key ['-', '0', 'e', '0'] ⟨true, 0, 0, 4⟩ (by decide) rfl
  · exact key ['-', '0', '.', '0'] ⟨true, 0, -1, 4⟩ (by decide) rfl
  · exact key ['-', '0'] ⟨true, 0, 0, 2⟩ (by decide) rfl

/-- Witness for C19: `-0.0` into a `float` preset to 3 on the sample platform. -/
theorem from_chars_signed_zero_witness :
    from_chars_float sample.fast_float sample.hexadecimal 100 ['-', '0', '.', '0']
        (sample.xfloat.finite false 3 0) chars_format.general
      = (⟨104, errc.success⟩, sample.xfloat.finite true 0 0) :=
  (from_chars_signed_zero sample.consts sample.rounding sample.hexadecimal
    sample.hexadecimal (from_chars_float sample.fast_float sample.hexadecimal)
    (Or.inl rfl) 100 (sample.xfloat.finite false 3 0)).2.2.2.2.1

/-- C20: against the decimal engine as the spec describes it, the `float` and the
`double` overload in general format reject every text that starts with `e` or
`E` with status invalid-argument; the pointer stays at `first` and the destination
keeps its value. -/
theorem from_chars_bare_exponent_rejected {T : Type} (C : FloatConsts T) (R : Rounding T)
    (impl32 impl64 : FromChars T)
    (first : Ptr) (c : Char) (rest : List Char) (v : T)
    (hc : c = 'e' ∨ c = 'E') :
    from_chars_float (fast_float.from_chars C R) impl32 first (c :: rest) v
        chars_format.general
      = (⟨first, errc.invalid_argument⟩, v)
    ∧ from_chars_double (fast_float.from_chars C R) impl64 first (c :: rest) v
        chars_format.general
      = (⟨first, errc.invalid_argument⟩, v) := by
  have hp := parse_decimal_marker c rest hc
  constructor
  · simp [from_chars_float, fast_float.from_chars, hp]
  · simp [from_chars_double, fast_float.from_chars, hp]

/-- Witness for C20: `E01` into a `float` preset to 3 on the sample platform. -/
theorem from_chars_bare_exponent_rejected_witness :
    from_chars_float sample.fast_float sample.hexadecimal 100 ['E', '0', '1']
        (sample.xfloat.finite false 3 0) chars_format.general
      = (⟨100, errc.invalid_argument⟩, sample.xfloat.finite false 3 0) :=
  (from_chars_bare_exponent_rejected sample.consts sample.rounding sample.hexadecimal
    sample.hexadecimal 100 'E' ['0', '1'] (sample.xfloat.finite false 3 0)
    (Or.inr rfl)).1

/-- C24: the pointer returned by the `strtold`-based `long double` overload.  When
`strtold` consumes `k` characters of the temporary string, the returned pointer is
`k` past the start of the temporary's buffer; the buffer being storage apart from
the caller's range, the pointer lies outside `[first, last]` and is not `first + k`. -/
theorem from_chars_long_double_strtold_pointer {T : Type} (EINVAL ERANGE : Int)
    (strtold : Strtold T) (tmp_data : Ptr) (errno errno1 : Int)
    (first : Ptr) (chars : List Char) (v0 x : T) (fmt : chars_format) (k : Nat)
    (hlibc : strtold tmp_data (c_str chars) errno = (x, tmp_data + k, errno1))
    (hk : k ≤ chars.length)
    (hapart : tmp_data + chars.length < first ∨ first + chars.length < tmp_data) :
    (from_chars_long_double_strtold EINVAL ERANGE strtold tmp_data errno first chars v0
        fmt).1.1.ptr = tmp_data + k
    ∧ ((from_chars_long_double_strtold EINVAL ERANGE strtold tmp_data errno first chars v0
          fmt).1.1.ptr < first
        ∨ first + chars.length
          < (from_chars_long_double_strtold EINVAL ERANGE strtold tmp_data errno first chars
              v0 fmt).1.1.ptr)
    ∧ (from_chars_long_double_strtold EINVAL ERANGE strtold tmp_data errno first chars v0
        fmt).1.1.ptr ≠ first + k := by
  simp only [from_chars_long_double_strtold, hlibc]
  have key : ∀ a b n : Nat, k ≤ n → (a + n < b ∨ b + n < a) →
      (a + k < b ∨ b + n < a + k) ∧ a + k ≠ b + k := by
    intro a b n h1 h2
    omega
  exact ⟨trivial, key tmp_data first chars.length hk hapart⟩

/-- Witness for C24: `12` at address 100 with the temporary at address 5000; the
returned pointer is 5002. -/
theorem from_chars_long_double_strtold_pointer_witness :
    (from_chars_long_double_strtold 22 34 sample.strtold 5000 0 100 ['1', '2']
        (sample.xfloat.finite false 0 0) chars_format.general).1.1.ptr = 5000 + 2
    ∧ ((from_chars_long_double_strtold 22 34 sample.strtold 5000 0 100 ['1', '2']
          (sample.xfloat.finite false 0 0) chars_format.general).1.1.ptr < 100
        ∨ 100 + ['1', '2'].length
          < (from_chars_long_double_strtold 22 34 sample.strtold 5000 0 100 ['1', '2']
              (sample.xfloat.finite false 0 0) chars_format.general).1.1.ptr)
    ∧ (from_chars_long_double_strtold 22 34 sample.strtold 5000 0 100 ['1', '2']
        (sample.xfloat.finite false 0 0) chars_format.general).1.1.ptr ≠ 100 + 2 :=
  from_chars_long_double_strtold_pointer 22 34 sample.strtold 5000 0 0 100 ['1', '2']
    (sample.xfloat.finite false 0 0) (sample.xfloat.finite false 12 0)
    chars_format.general 2 (by decide) (by decide) (by decide)

/-- C25: the status of the `strtold`-based `long double` overload depends on the error
indicator before the call.  For a text that `strtold` converts without touching
the indicator, the call made with the indicator at 0 returns success and the same
call made with the indicator at `ERANGE` returns result-out-of-range. -/
theorem from_chars_long_double_strtold_errno_dependence {T : Type} (EINVAL ERANGE : Int)
    (strtold : Strtold T) (tmp_data first : Ptr) (chars : List Char) (v0 x : T)
    (fmt : chars_format) (endptr : Ptr)
    (hne : EINVAL ≠ ERANGE) (hI : EINVAL ≠ 0) (hR : ERANGE ≠ 0)
    (h0 : strtold tmp_data (c_str chars) 0 = (x, endptr, 0))
    (h1 : strtold tmp_data (c_str chars) ERANGE = (x, endptr, ERANGE)) :
    (from_chars_long_double_strtold EINVAL ERANGE strtold tmp_data 0 first chars v0
        fmt).1 = (⟨endptr, errc.success⟩, x)
    ∧ (from_chars_long_double_strtold EINVAL ERANGE strtold tmp_data ERANGE first chars v0
        fmt).1 = (⟨endptr, errc.result_out_of_range⟩, x) := by
  constructor
  · simp only [from_chars_long_double_strtold, h0]
    simp [errno_to_errc, Ne.symm hI, Ne.symm hR]
  · simp only [from_chars_long_double_strtold, h1]
    simp [errno_to_errc, Ne.symm hne]

/-- Witness for C25: `12` with the sample `strtold`, once with the error indicator at
0 and once at 34. -/
theorem from_chars_long_double_strtold_errno_dependence_witness :
    (from_chars_long_double_strtold 22 34 sample.strtold 5000 0 100 ['1', '2']
        (sample.xfloat.finite false 0 0) chars_format.general).1
      = (⟨5002, errc.success⟩, sample.xfloat.finite false 12 0)
    ∧ (from_chars_long_double_strtold 22 34 sample.strtold 5000 34 100 ['1', '2']
        (sample.xfloat.finite false 0 0) chars_format.general).1
      = (⟨5002, errc.result_out_of_range⟩, sample.xfloat.finite false 12 0) :=
  from_chars_long_double_strtold_errno_dependence 22 34 sample.strtold 5000 100
    ['1', '2'] (sample.xfloat.finite false 0 0) (sample.xfloat.finite false 12 0)
    chars_format.general 5002 (by decide) (by decide) (by decide) (by decide) (by decide)

/-- C27: in each bit-copy adapter (`std::float32_t`, `std::float64_t`,
`std::float128_t`, and `long double` of the size of `double`) the native temporary
holds the destination's bytes when the native parse starts, and whenever the
native parse leaves its destination untouched the adapter's destination keeps
exactly its prior bytes. -/
theorem from_chars_alias_keeps_untouched (n32 n64 n128 nld : Nat)
    (ff32 impl32 ff64 impl64 : FromChars Bytes)
    (Q : FloatConsts Bytes) (parser : Parser) (compute_float128 : Composer Bytes)
    (from_chars_strtod : Strtod Bytes)
    (first : Ptr) (chars : List Char) (fmt : chars_format)
    (f d q dl v32 v64 v128 vld : Bytes) :
    (v32.length = n32 → f.length = n32 →
        memcpy f v32 n32 = v32
        ∧ ((from_chars_float ff32 impl32 first chars v32 fmt).2 = v32 →
            (from_chars_float32_t n32 n32 ff32 impl32 f first chars v32 fmt).2 = v32))
    ∧ (v64.length = n64 → d.length = n64 →
        memcpy d v64 n64 = v64
        ∧ ((from_chars_double ff64 impl64 first chars v64 fmt).2 = v64 →
            (from_chars_float64_t n64 n64 ff64 impl64 d first chars v64 fmt).2 = v64))
    ∧ (v128.length = n128 → q.length = n128 →
        memcpy q v128 n128 = v128
        ∧ ((from_chars_float128 Q parser compute_float128 from_chars_strtod first chars
              v128 fmt).2 = v128 →
            (from_chars_float128_t n128 n128 Q parser compute_float128 from_chars_strtod q
              first chars v128 fmt).2 = v128))
    ∧ (vld.length = nld → dl.length = nld →
        memcpy dl vld nld = vld
        ∧ ((from_chars_double ff64 impl64 first chars vld fmt).2 = vld →
            (from_chars_long_double_64 nld nld ff64 impl64 dl first chars vld fmt).2
              = vld)) := by
  refine ⟨?_, ?_, ?_, ?_⟩
  · intro hv hf
    refine ⟨memcpy_whole f v32 n32 hv hf, fun hu => ?_⟩
    simp only [from_chars_float32_t]
    rw [memcpy_whole f v32 n32 hv hf, hu, memcpy_whole v32 v32 n32 hv hv]
  · intro hv hf
    refine ⟨memcpy_whole d v64 n64 hv hf, fun hu => ?_⟩
    simp only [from_chars_float64_t]
    rw [memcpy_whole d v64 n64 hv hf, hu, memcpy_whole v64 v64 n64 hv hv]
  · intro hv hf
    refine ⟨memcpy_whole q v128 n128 hv hf, fun hu => ?_⟩
    simp only [from_chars_float128_t]
    rw [memcpy_whole q v128 n128 hv hf, hu, memcpy_whole v128 v128 n128 hv hv]
  · intro hv hf
    refine ⟨memcpy_whole dl vld nld hv hf, fun hu => ?_⟩
    simp only [from_chars_long_double_64]
    rw [memcpy_whole dl vld nld hv hf, hu, memcpy_whole vld vld nld hv hv]

/-- Witness for C27: the rejected text `x` leaves a 4-byte alias with its prior
bytes on the sample platform. -/
theorem from_chars_alias_keeps_untouched_witness :
    (from_chars_float32_t 4 4 (sample.bytes_engine 4) (sample.bytes_engine 4)
        [1, 2, 3, 4] 100 ['x'] [0, 0, 64, 64] chars_format.general).2
      = [0, 0, 64, 64] :=
  ((from_chars_alias_keeps_untouched 4 8 16 8 (sample.bytes_engine 4)
      (sample.bytes_engine 4) (sample.bytes_engine 8) (sample.bytes_engine 8)
      sample.bytes_consts sample.tokenize sample.bytes_compose sample.bytes_strtod 100
      ['x'] chars_format.general [1, 2, 3, 4] [1, 2, 3, 4, 5, 6, 7, 8]
      (sample.le_bytes 16 7) [1, 2, 3, 4, 5, 6, 7, 8] [0, 0, 64, 64]
      [0, 0, 0, 0, 0, 0, 8, 64] (sample.le_bytes 16 3) [0, 0, 0, 0, 0, 0, 8, 64]).1
    (by decide) (by decide)).2 (by decide)

/-- C28: in both extended-composition overloads, on every path that does not go
through the fallback parser, a returned status of success means that the
destination was assigned: it holds a signed infinity, a signed NaN, a signed zero
or the composer's value, and the outcome is the same for every prior destination
value.  Hence an outcome whose destination varies with the prior value carries a
status other than success. -/
theorem from_chars_extended_success_assigned {LD Q : Type}
    (L : FloatConsts LD) (Qc : FloatConsts Q) (parser : Parser)
    (compute_float80 : Composer LD) (compute_float128 : Composer Q)
    (strtod80 : Strtod LD) (strtod128 : Strtod Q)
    (first : Ptr) (chars : List Char) (vl : LD) (vq : Q) (fmt : chars_format)
    (p : parser_result) (hp : parser first chars false 0 0 fmt = p) :
    (¬ (p.r.ec = errc.success ∧ p.significand ≠ 0
          ∧ (compute_float80 p.exponent p.significand p.sign errc.success).2
              = errc.not_supported) →
        ((from_chars_long_double L parser compute_float80 strtod80 first chars vl fmt).1.ec
            = errc.success →
          (from_chars_long_double L parser compute_float80 strtod80 first chars vl fmt).2
              ∈ [L.infinity, L.neg L.infinity, L.quiet_NaN, L.neg L.quiet_NaN,
                  L.signaling_NaN, L.neg L.signaling_NaN, L.zero, L.neg L.zero,
                  (compute_float80 p.exponent p.significand p.sign errc.success).1]
          ∧ ∀ v1 : LD,
              from_chars_long_double L parser compute_float80 strtod80 first chars v1 fmt
                = from_chars_long_double L parser compute_float80 strtod80 first chars vl
                    fmt)
        ∧ ((∃ v1 : LD,
              (from_chars_long_double L parser compute_float80 strtod80 first chars v1
                  fmt).2
                ≠ (from_chars_long_double L parser compute_float80 strtod80 first chars vl
                  fmt).2) →
            (from_chars_long_double L parser compute_float80 strtod80 first chars vl
              fmt).1.ec ≠ errc.success))
    ∧ (¬ (p.r.ec = errc.success ∧ p.significand ≠ 0
          ∧ (compute_float128 p.exponent p.significand p.sign errc.success).2
              = errc.not_supported) →
        ((from_chars_float128 Qc parser compute_float128 strtod128 first chars vq fmt).1.ec
            = errc.success →
          (from_chars_float128 Qc parser compute_float128 strtod128 first chars vq fmt).2
              ∈ [Qc.infinity, Qc.neg Qc.infinity, Qc.quiet_NaN, Qc.neg Qc.quiet_NaN,
                  Qc.signaling_NaN, Qc.neg Qc.signaling_NaN, Qc.zero, Qc.neg Qc.zero,
                  (compute_float128 p.exponent p.significand p.sign errc.success).1]
          ∧ ∀ v1 : Q,
              from_chars_float128 Qc parser compute_float128 strtod128 first chars v1 fmt
                = from_chars_float128 Qc parser compute_float128 strtod128 first chars vq
                    fmt)
        ∧ ((∃ v1 : Q,
              (from_chars_float128 Qc parser compute_float128 strtod128 first chars v1
                  fmt).2
                ≠ (from_chars_float128 Qc parser compute_float128 strtod128 first chars vq
                  fmt).2) →
            (from_chars_float128 Qc parser compute_float128 strtod128 first chars vq
              fmt).1.ec ≠ errc.success)) := by
  subst hp
  constructor
  · intro hnf
    have main : (from_chars_long_double L parser compute_float80 strtod80 first chars vl
          fmt).1.ec = errc.success →
        (from_chars_long_double L parser compute_float80 strtod80 first chars vl fmt).2
            ∈ [L.infinity, L.neg L.infinity, L.quiet_NaN, L.neg L.quiet_NaN,
                L.signaling_NaN, L.neg L.signaling_NaN, L.zero, L.neg L.zero,
                (compute_float80 (parser first chars false 0 0 fmt).exponent
                  (parser first chars false 0 0 fmt).significand
                  (parser first chars false 0 0 fmt).sign errc.success).1]
        ∧ ∀ v1 : LD,
            from_chars_long_double L parser compute_float80 strtod80 first chars v1 fmt
              = from_chars_long_double L parser compute_float80 strtod80 first chars vl
                  fmt := by
      unfold from_chars_long_double
      simp only []
      split_ifs <;> simp_all
    refine ⟨main, ?_⟩
    rintro ⟨v1, hv1⟩ hs
    exact hv1 (congrArg Prod.snd ((main hs).2 v1))
  · intro hnf
    have main : (from_chars_float128 Qc parser compute_float128 strtod128 first chars vq
          fmt).1.ec = errc.success →
        (from_chars_float128 Qc parser compute_float128 strtod128 first chars vq fmt).2
            ∈ [Qc.infinity, Qc.neg Qc.infinity, Qc.quiet_NaN, Qc.neg Qc.quiet_NaN,
                Qc.signaling_NaN, Qc.neg Qc.signaling_NaN, Qc.zero, Qc.neg Qc.zero,
                (compute_float128 (parser first chars false 0 0 fmt).exponent
                  (parser first chars false 0 0 fmt).significand
                  (parser first chars false 0 0 fmt).sign errc.success).1]
        ∧ ∀ v1 : Q,
            from_chars_float128 Qc parser compute_float128 strtod128 first chars v1 fmt
              = from_chars_float128 Qc parser compute_float128 strtod128 first chars vq
                  fmt := by
      unfold from_chars_float128
      simp only []
      split_ifs <;> simp_all
    refine ⟨main, ?_⟩
    rintro ⟨v1, hv1⟩ hs
    exact hv1 (congrArg Prod.snd ((main hs).2 v1))

/-- Witness for C28: `-inf` on the sample platform returns success, and the outcome
is the same from a destination preset to 7 as from one preset to 3. -/
theorem from_chars_extended_success_assigned_witness :
    sample.from_chars 100 ['-', 'i', 'n', 'f'] (sample.xfloat.finite false 7 0)
        chars_format.general
      = sample.from_chars 100 ['-', 'i', 'n', 'f'] (sample.xfloat.finite false 3 0)
        chars_format.general :=
  ((((from_chars_extended_success_assigned sample.consts sample.consts sample.tokenize
    sample.compose sample.compose sample.strtod sample.strtod 100 ['-', 'i', 'n', 'f']
    (sample.xfloat.finite false 3 0) (sample.xfloat.finite false 3 0)
    chars_format.general _ rfl).1 (by decide)).1 (by decide)).2
    (sample.xfloat.finite false 7 0))

/-- C29: the `strtold`-based `long double` overload ignores the format: for any two
formats the outcome (result, written value and error indicator) is identical,
and on every call the destination receives the value `strtold` returns,
whatever the status. -/
theorem from_chars_long_double_strtold_ignores_format {T : Type} (EINVAL ERANGE : Int)
    (strtold : Strtold T) (tmp_data : Ptr) (errno : Int)
    (first : Ptr) (chars : List Char) (v0 : T) (f1 f2 : chars_format) :
    from_chars_long_double_strtold EINVAL ERANGE strtold tmp_data errno first chars v0 f1
      = from_chars_long_double_strtold EINVAL ERANGE strtold tmp_data errno first chars v0 f2
    ∧ (from_chars_long_double_strtold EINVAL ERANGE strtold tmp_data errno first chars v0
        f1).1.2 = (strtold tmp_data (c_str chars) errno).1 := by
  exact ⟨rfl, rfl⟩

/-! ### Decimal numerals and the decimal engine -/

/-- Scanning a string of digits followed by more text continues on that text with
the digits accumulated. -/
theorem scan_digits_digits (ds rest : List Char) (acc n : Nat)
    (h : ∀ c ∈ ds, is_digit c) :
    scan_digits (ds ++ rest) acc n
      = scan_digits rest (ds.foldl (fun a c => 10 * a + (c.toNat - 48)) acc) (n + ds.length) := by
  induction ds generalizing acc n with
  | nil => simp
  | cons d ds ih =>
    have hd : 48 ≤ d.toNat ∧ d.toNat ≤ 57 := h d (List.mem_cons_self _ _)
    have hrest : ∀ c ∈ ds, is_digit c := fun c hc => h c (List.mem_cons_of_mem _ hc)
    rw [List.cons_append, scan_digits, if_pos hd, ih _ _ hrest, List.foldl_cons,
      List.length_cons]
    congr 1
    omega

/-- Scanning stops at once on a text that does not start with a digit. -/
theorem scan_digits_stop (rest : List Char) (acc n : Nat)
    (h : ∀ c, rest.head? = some c → ¬ is_digit c) :
    scan_digits rest acc n = (acc, n, rest) := by
  cases rest with
  | nil => rfl
  | cons c cs =>
    have hc : ¬ (48 ≤ c.toNat ∧ c.toNat ≤ 57) := h c rfl
    rw [scan_digits, if_neg hc]

/-- The value of a digit string followed by another one. -/
theorem digits_value_append (ds fs : List Char) :
    digits_value (ds ++ fs)
      = fs.foldl (fun a c => 10 * a + (c.toNat - 48)) (digits_value ds) := by
  simp [digits_value, List.foldl_append]

/-- A run of zeros accumulates to zero. -/
theorem foldl_zeros (k : Nat) :
    (List.replicate k '0').foldl (fun a c => 10 * a + (c.toNat - 48)) 0 = 0 := by
  induction k with
  | zero => rfl
  | succ k ih => simp [List.replicate_succ, ih]

/-- Zeros in front of a digit string do not change its value. -/
theorem digits_value_zeros (k : Nat) (ds : List Char) :
    digits_value (List.replicate k '0' ++ ds) = digits_value ds := by
  rw [digits_value_append]
  unfold digits_value
  rw [foldl_zeros]

/-- A run of zeros consists of digits. -/
theorem is_digit_zeros (k : Nat) : ∀ c ∈ List.replicate k '0', is_digit c := by
  intro c hc
  rw [List.eq_of_mem_replicate hc]
  decide

/-- The exponent part of a well-formed numeral is read in full and denotes the
value of its digits with its sign. -/
theorem scan_exponent_parts (c : Char) (sg es : List Char)
    (hc : c = 'e' ∨ c = 'E') (hsg : sg = [] ∨ sg = ['+'] ∨ sg = ['-'])
    (hne : es ≠ []) (hes : ∀ d ∈ es, is_digit d) :
    scan_exponent (c :: (sg ++ es))
      = some (if sg = ['-'] then -(digits_value es : Int) else (digits_value es : Int),
              1 + sg.length + es.length) := by
  have hscan : scan_digits es 0 0 = (digits_value es, es.length, []) := by
    have := scan_digits_digits es [] 0 0 hes
    rw [List.append_nil] at this
    rw [this, scan_digits_stop [] _ _ (by simp)]
    simp [digits_value]
  have hlen : es.length ≠ 0 := by
    intro h0
    exact hne (List.length_eq_zero.mp h0)
  obtain ⟨d, es', rfl⟩ := List.exists_cons_of_ne_nil hne
  have hd : is_digit d := hes d (List.mem_cons_self _ _)
  have hdm : d ≠ '-' := by
    rintro rfl
    exact absurd hd (by decide)
  have hdp : d ≠ '+' := by
    rintro rfl
    exact absurd hd (by decide)
  rcases hc with rfl | rfl <;> rcases hsg with rfl | rfl | rfl <;>
    simp [scan_exponent, hscan, hdm, hdp, hlen]

/-- A leading `-` sets the sign of the token and adds one to its length. -/
theorem parse_decimal_minus (fmt : chars_format) (body : List Char)
    (hbody : body.head? ≠ some '-') :
    parse_decimal fmt ('-' :: body)
      = (parse_decimal fmt body).map
          (fun t => ⟨true, t.significand, t.exponent, 1 + t.length⟩) := by
  have hs : decide (body.head? = some '-') = false := by simp [hbody]
  unfold parse_decimal
  simp only [List.head?_cons, List.tail_cons, decide_True, if_true, hs]
  by_cases h0 : (scan_digits body 0 0).2.1 = 0
  · simp [h0]
  · cases fmt <;> simp [h0] <;>
      first
      | omega
      | (generalize scan_exponent _ = ex
         cases ex <;> first | rfl | (simp; omega))

/-- A text made of digits does not start with `-`. -/
theorem digits_head (ds rest : List Char) (hne : ds ≠ []) (hds : ∀ c ∈ ds, is_digit c) :
    (ds ++ rest).head? ≠ some '-' := by
  obtain ⟨d, ds', rfl⟩ := List.exists_cons_of_ne_nil hne
  have hd : is_digit d := hds d (List.mem_cons_self _ _)
  simp only [List.cons_append, List.head?_cons, ne_eq, Option.some.injEq]
  rintro rfl
  exact absurd hd (by decide)

/-- The token of an unsigned text in terms of what the scans of its integer part
and of its fraction part return. -/
theorem parse_decimal_of_scans (fmt : chars_format) (body : List Char)
    (hsign : body.head? ≠ some '-')
    (V n : Nat) (rest : List Char) (hi : scan_digits body 0 0 = (V, n, rest)) (hn : n ≠ 0)
    (dotted : Bool) (hdot : decide (rest.head? = some '.') = dotted)
    (M k : Nat) (ep : List Char)
    (hfr : (if dotted = true then scan_digits rest.tail V 0 else (V, 0, rest)) = (M, k, ep)) :
    parse_decimal fmt body
      = match fmt with
        | chars_format.fixed =>
          some ⟨false, M, -(k : Int), 0 + n + (if dotted = true then 1 else 0) + k⟩
        | chars_format.scientific =>
          match scan_exponent ep with
          | some e =>
            some ⟨false, M, e.1 - (k : Int),
              0 + n + (if dotted = true then 1 else 0) + k + e.2⟩
          | none => none
        | chars_format.general =>
          match scan_exponent ep with
          | some e =>
            some ⟨false, M, e.1 - (k : Int),
              0 + n + (if dotted = true then 1 else 0) + k + e.2⟩
          | none => some ⟨false, M, -(k : Int), 0 + n + (if dotted = true then 1 else 0) + k⟩
        | chars_format.hex => none := by
  have hs : decide (body.head? = some '-') = false := decide_eq_false hsign
  unfold parse_decimal
  simp only [hs, Bool.false_eq_true, if_false, hi, hn, hdot, hfr]

/-- The exponent text of a well-formed numeral does not start with a digit or with
a point. -/
theorem expo_text_head (n : numeral) (hv : n.valid) :
    ∀ c, n.expo_text.head? = some c → ¬ is_digit c ∧ c ≠ '.' := by
  intro c hc
  obtain ⟨minus, ds, frac, expo⟩ := n
  cases expo with
  | none => simp [numeral.expo_text] at hc
  | some e =>
    have hm : e.1 = 'e' ∨ e.1 = 'E' := (hv.2.2.2 : expo_valid (some e)).1
    simp only [numeral.expo_text, List.head?_cons, Option.some.injEq] at hc
    subst hc
    rcases hm with h | h <;> rw [h] <;> decide

/-- What the exponent scan returns on the exponent text of a well-formed numeral. -/
theorem scan_exponent_expo_text (n : numeral) (hv : n.valid) :
    scan_exponent n.expo_text
      = n.expo.map (fun e => (n.expo_value, 1 + e.2.1.length + e.2.2.length)) := by
  obtain ⟨minus, ds, frac, expo⟩ := n
  cases expo with
  | none => rfl
  | some e =>
    obtain ⟨hm, hsg, hne, hes⟩ := (hv.2.2.2 : expo_valid (some e))
    simp only [numeral.expo_text, numeral.expo_value, Option.map_some']
    exact scan_exponent_parts e.1 e.2.1 e.2.2 hm hsg hne hes

/-- The token of a well-formed numeral without a sign. -/
theorem parse_decimal_unsigned (fmt : chars_format) (n : numeral)
    (hv : n.valid) (hf : n.fits fmt) :
    parse_decimal fmt (n.int_digits ++ (n.frac_text ++ n.expo_text))
      = some ⟨false, digits_value (n.int_digits ++ n.frac_digits),
          n.expo_value - (n.frac_digits.length : Int),
          n.int_digits.length + (n.frac_text ++ n.expo_text).length⟩ := by
  have hep := expo_text_head n hv
  have hex := scan_exponent_expo_text n hv
  obtain ⟨hne, hds, hfs, -⟩ := hv
  have hlen : n.int_digits.length ≠ 0 := fun h0 => hne (List.length_eq_zero.mp h0)
  have hepd : ∀ c, n.expo_text.head? = some c → ¬ is_digit c := fun c hc => (hep c hc).1
  have hrest : ∀ c, (n.frac_text ++ n.expo_text).head? = some c → ¬ is_digit c := by
    intro c hc
    cases hfr : n.frac with
    | none =>
      simp only [numeral.frac_text, hfr, List.nil_append] at hc
      exact hepd c hc
    | some fs =>
      simp only [numeral.frac_text, hfr, List.cons_append, List.head?_cons,
        Option.some.injEq] at hc
      subst hc
      decide
  have hi : scan_digits (n.int_digits ++ (n.frac_text ++ n.expo_text)) 0 0
      = (digits_value n.int_digits, n.int_digits.length, n.frac_text ++ n.expo_text) := by
    rw [scan_digits_digits _ _ 0 0 hds, scan_digits_stop _ _ _ hrest]
    simp [digits_value]
  have hdot : decide ((n.frac_text ++ n.expo_text).head? = some '.') = n.frac.isSome := by
    cases hfr : n.frac with
    | none =>
      simp only [numeral.frac_text, hfr, List.nil_append, Option.isSome_none,
        decide_eq_false_iff_not]
      intro h
      exact (hep _ h).2 rfl
    | some fs => simp [numeral.frac_text, hfr]
  have hfrac : (if n.frac.isSome = true
        then scan_digits (n.frac_text ++ n.expo_text).tail (digits_value n.int_digits) 0
        else (digits_value n.int_digits, 0, n.frac_text ++ n.expo_text))
      = (digits_value (n.int_digits ++ n.frac_digits), n.frac_digits.length,
          n.expo_text) := by
    cases hfr : n.frac with
    | none => simp [numeral.frac_text, numeral.frac_digits, hfr]
    | some fs =>
      have hfs' : ∀ c ∈ fs, is_digit c := by
        simpa [numeral.frac_digits, hfr] using hfs
      simp only [numeral.frac_text, numeral.frac_digits, hfr, Option.isSome_some, if_true,
        List.cons_append, List.tail_cons]
      rw [scan_digits_digits fs _ _ 0 hfs', scan_digits_stop _ _ _ hepd, digits_value_append]
      simp
  rw [parse_decimal_of_scans fmt _ (digits_head _ _ hne hds) _ _ _ hi hlen _ hdot _ _ _ hfrac,
    hex]
  clear hi hdot hfrac hrest hepd hep hex hfs hds hne hlen
  obtain ⟨minus, ds, frac, expo⟩ := n
  simp only [numeral.fits] at hf
  rcases hf with rfl | ⟨rfl, hx⟩ | ⟨rfl, hx⟩ <;> cases frac <;> cases expo <;>
    simp_all [numeral.frac_text, numeral.expo_text, numeral.frac_digits,
      numeral.expo_value] <;>
    omega

/-- The token of a well-formed numeral is the number it denotes: the tokenizer reads
the whole text, with the sign, the value of the digits and the exponent of the
numeral. -/
theorem parse_decimal_numeral (fmt : chars_format) (n : numeral)
    (hv : n.valid) (hf : n.fits fmt) :
    parse_decimal fmt n.text = some n.token := by
  have hu := parse_decimal_unsigned fmt n hv hf
  cases hm : n.minus with
  | false =>
    simp only [numeral.text, numeral.token, hm, Bool.false_eq_true, if_false,
      List.nil_append, hu, List.length_append]
  | true =>
    simp only [numeral.text, numeral.token, hm, if_true, List.singleton_append]
    rw [parse_decimal_minus fmt _ (digits_head _ _ hv.1 hv.2.1), hu]
    simp only [Option.map_some', List.length_cons, List.length_append]
    congr 2
    omega

/-- The outcome of the decimal engine on a text that holds a token: the pointer is
past the token, and status and value are those of the conversion of the token's
number. -/
theorem fast_float_of_token {T : Type} (C : FloatConsts T) (R : Rounding T)
    (first : Ptr) (chars : List Char) (v : T) (fmt : chars_format) (t : decimal_token)
    (h : parse_decimal fmt chars = some t) :
    fast_float.from_chars C R first chars v fmt
      = (⟨first + t.length, (reference_conversion C R t.sign t.significand t.exponent).1⟩,
          (reference_conversion C R t.sign t.significand t.exponent).2) := by
  unfold fast_float.from_chars reference_conversion
  simp only [h]
  by_cases hz : t.significand = 0
  · simp [hz]
  · simp only [hz, if_false]
    cases R.classify t.significand t.exponent <;> rfl

/-- Padding keeps a numeral well formed. -/
theorem numeral.pad_valid (n : numeral) (k j : Nat) (hv : n.valid) : (n.pad k j).valid := by
  obtain ⟨minus, ds, frac, expo⟩ := n
  obtain ⟨hne, hds, hfs, hex⟩ := hv
  refine ⟨?_, ?_, hfs, ?_⟩
  · simp only [numeral.pad]
    intro h
    exact hne (List.append_eq_nil.mp h).2
  · intro c hc
    simp only [numeral.pad, List.mem_append] at hc
    rcases hc with hc | hc
    · exact is_digit_zeros k c hc
    · exact hds c hc
  · cases expo with
    | none => trivial
    | some e =>
      obtain ⟨hm, hsg, hne', hes⟩ := (hex : expo_valid (some e))
      refine ⟨hm, hsg, ?_, ?_⟩
      · intro h
        exact hne' (List.append_eq_nil.mp h).2
      · intro c hc
        simp only [List.mem_append] at hc
        rcases hc with hc | hc
        · exact is_digit_zeros j c hc
        · exact hes c hc

/-- Padding changes neither the sign nor the number of a numeral. -/
theorem numeral.pad_token (n : numeral) (k j : Nat) :
    (n.pad k j).token.sign = n.token.sign
    ∧ (n.pad k j).token.significand = n.token.significand
    ∧ (n.pad k j).token.exponent = n.token.exponent := by
  obtain ⟨minus, ds, frac, expo⟩ := n
  refine ⟨rfl, ?_, ?_⟩
  · simp only [numeral.token, numeral.pad, numeral.frac_digits, List.append_assoc]
    exact digits_value_zeros k _
  · cases expo with
    | none => rfl
    | some e =>
      simp only [numeral.token, numeral.pad, numeral.frac_digits, numeral.expo_value,
        Option.map_some', digits_value_zeros]

/-- Zeros in front of the integer digits of an unsigned numeral are zeros in front
of its text. -/
theorem numeral.pad_text (n : numeral) (k : Nat) (hm : n.minus = false) :
    (n.pad k 0).text = List.replicate k '0' ++ n.text := by
  obtain ⟨minus, ds, frac, expo⟩ := n
  simp only at hm
  subst hm
  cases expo with
  | none => simp [numeral.pad, numeral.text, numeral.frac_text, numeral.expo_text]
  | some e => simp [numeral.pad, numeral.text, numeral.frac_text, numeral.expo_text]

/-- C21: against the decimal engine as the spec describes it, for `float` and for
`double` in general format and every well-formed numeral that starts with a digit:
the numeral written with `k` more zeros in front (which is `k` zeros followed by its
text) and with `j` more zeros in front of its exponent digits yields the same
status and the same value as the numeral itself. -/
theorem from_chars_leading_zeros {T : Type} (C : FloatConsts T) (R : Rounding T)
    (impl32 impl64 : FromChars T) (first : Ptr) (v : T)
    (n : numeral) (k j : Nat) (hv : n.valid) (hm : n.minus = false) :
    (n.pad k 0).text = List.replicate k '0' ++ n.text
    ∧ (from_chars_float (fast_float.from_chars C R) impl32 first (n.pad k j).text v
          chars_format.general).1.ec
        = (from_chars_float (fast_float.from_chars C R) impl32 first n.text v
          chars_format.general).1.ec
    ∧ (from_chars_float (fast_float.from_chars C R) impl32 first (n.pad k j).text v
          chars_format.general).2
        = (from_chars_float (fast_float.from_chars C R) impl32 first n.text v
          chars_format.general).2
    ∧ (from_chars_double (fast_float.from_chars C R) impl64 first (n.pad k j).text v
          chars_format.general).1.ec
        = (from_chars_double (fast_float.from_chars C R) impl64 first n.text v
          chars_format.general).1.ec
    ∧ (from_chars_double (fast_float.from_chars C R) impl64 first (n.pad k j).text v
          chars_format.general).2
        = (from_chars_double (fast_float.from_chars C R) impl64 first n.text v
          chars_format.general).2 := by
  have h1 := parse_decimal_numeral chars_format.general n hv (Or.inl rfl)
  have h2 := parse_decimal_numeral chars_format.general (n.pad k j) (n.pad_valid k j hv)
    (Or.inl rfl)
  obtain ⟨hs, hg, he⟩ := n.pad_token k j
  have e1 := fast_float_of_token C R first n.text v chars_format.general _ h1
  have e2 := fast_float_of_token C R first (n.pad k j).text v chars_format.general _ h2
  rw [hs, hg, he] at e2
  refine ⟨n.pad_text k hm, ?_, ?_, ?_, ?_⟩ <;>
    simp [from_chars_float, from_chars_double, e1, e2]

/-- Witness for C21: 43 zeros in front of `5`, and 20 zeros in front of the exponent
digit of `1.5e-5`, on the sample platform. -/
theorem from_chars_leading_zeros_witness :
    (numeral.pad ⟨false, ['5'], none, none⟩ 43 0).text = List.replicate 43 '0' ++ ['5']
    ∧ (from_chars_float sample.fast_float sample.hexadecimal 100
          (numeral.pad ⟨false, ['5'], none, none⟩ 43 0).text
          (sample.xfloat.finite false 3 0) chars_format.general).2
        = (from_chars_float sample.fast_float sample.hexadecimal 100 ['5']
          (sample.xfloat.finite false 3 0) chars_format.general).2
    ∧ (from_chars_float sample.fast_float sample.hexadecimal 100
          (numeral.pad ⟨false, ['1'], some ['5'], some ('e', ['-'], ['5'])⟩ 0 20).text
          (sample.xfloat.finite false 3 0) chars_format.general).2
        = (from_chars_float sample.fast_float sample.hexadecimal 100
          ['1', '.', '5', 'e', '-', '5']
          (sample.xfloat.finite false 3 0) chars_format.general).2 :=
  ⟨(from_chars_leading_zeros sample.consts sample.rounding sample.hexadecimal
      sample.hexadecimal 100 (sample.xfloat.finite false 3 0)
      ⟨false, ['5'], none, none⟩ 43 0 (by decide) rfl).1,
   (from_chars_leading_zeros sample.consts sample.rounding sample.hexadecimal
      sample.hexadecimal 100 (sample.xfloat.finite false 3 0)
      ⟨false, ['5'], none, none⟩ 43 0 (by decide) rfl).2.2.1,
   (from_chars_leading_zeros sample.consts sample.rounding sample.hexadecimal
      sample.hexadecimal 100 (sample.xfloat.finite false 3 0)
      ⟨false, ['1'], some ['5'], some ('e', ['-'], ['5'])⟩ 0 20 (by decide) rfl).2.2.1⟩

set_option exponentiation.threshold 2000 in
/-- A non-zero magnitude with a decimal exponent of 309 or more is beyond the range
of `double`. -/
theorem binary64_classify_overflow (m : Nat) (e : Int) (hm : m ≠ 0) (he : 309 ≤ e) :
    binary64_classify m e = magnitude.overflow := by
  have h0 : 0 ≤ e := by omega
  have hp : (10 : Nat) ^ 309 ≤ 10 ^ e.toNat :=
    Nat.pow_le_pow_right (by decide) (by omega)
  have hbig : (2 : Nat) ^ 1024 - 2 ^ 970 ≤ 10 ^ 309 := by norm_num
  have hmul : 10 ^ e.toNat ≤ m * 10 ^ e.toNat :=
    Nat.le_mul_of_pos_left _ (Nat.pos_of_ne_zero hm)
  have hle : (2 : Nat) ^ 1024 - 2 ^ 970 ≤ m * 10 ^ e.toNat :=
    le_trans hbig (le_trans hp hmul)
  unfold binary64_classify
  rw [if_pos h0, if_pos hle]

set_option exponentiation.threshold 2000 in
/-- C23: against the decimal engine as the spec describes it, with the range of
`double`: `1.7e+308` parses with status success to the nearest representable value
of `17 * 10 ^ 307`, a magnitude in range; and every token with a non-zero
significand and a decimal exponent of 309 or more parses to the infinity of the
token's sign with status result-out-of-range. -/
theorem from_chars_double_extreme_exponents {T : Type} (C : FloatConsts T) (R : Rounding T)
    (impl64 : FromChars T) (first : Ptr) (v : T)
    (hR : R.classify = binary64_classify) :
    from_chars_double (fast_float.from_chars C R) impl64 first
        ['1', '.', '7', 'e', '+', '3', '0', '8'] v chars_format.general
      = (⟨first + 8, errc.success⟩, R.nearest false 17 307)
    ∧ from_chars_double (fast_float.from_chars C R) impl64 first
        ['1', '.', '7', 'e', '+', '3', '0', '8'] v chars_format.scientific
      = (⟨first + 8, errc.success⟩, R.nearest false 17 307)
    ∧ R.classify 17 307 = magnitude.in_range
    ∧ ∀ (fmt : chars_format) (chars : List Char) (t : decimal_token),
        fmt ≠ chars_format.hex → parse_decimal fmt chars = some t →
        t.significand ≠ 0 → 309 ≤ t.exponent →
        from_chars_double (fast_float.from_chars C R) impl64 first chars v fmt
          = (⟨first + t.length, errc.result_out_of_range⟩,
              if t.sign = true then C.neg C.infinity else C.infinity) := by
  have hin : R.classify 17 307 = magnitude.in_range := by
    rw [hR]
    decide
  have hg : parse_decimal chars_format.general ['1', '.', '7', 'e', '+', '3', '0', '8']
      = some ⟨false, 17, 307, 8⟩ := by decide
  have hs : parse_decimal chars_format.scientific ['1', '.', '7', 'e', '+', '3', '0', '8']
      = some ⟨false, 17, 307, 8⟩ := by decide
  refine ⟨?_, ?_, hin, ?_⟩
  · simp [from_chars_double, fast_float_of_token C R first _ v _ _ hg,
      reference_conversion, hin]
  · simp [from_chars_double, fast_float_of_token C R first _ v _ _ hs,
      reference_conversion, hin]
  · intro fmt chars t hfmt hp hz he
    have hov : R.classify t.significand t.exponent = magnitude.overflow := by
      rw [hR]
      exact binary64_classify_overflow _ _ hz he
    simp [from_chars_double, hfmt, fast_float_of_token C R first _ v _ _ hp,
      reference_conversion, hz, hov]

set_option exponentiation.threshold 2000 in
/-- Witness for C23: `1.7e+308` and `-1.7e+400` on the sample platform with the
range of `double`. -/
theorem from_chars_double_extreme_exponents_witness :
    from_chars_double sample.fast_double sample.hexadecimal 100
        ['1', '.', '7', 'e', '+', '3', '0', '8'] (sample.xfloat.finite false 0 0)
        chars_format.general
      = (⟨108, errc.success⟩, sample.xfloat.finite false 17 307)
    ∧ from_chars_double sample.fast_double sample.hexadecimal 100
        ['-', '1', '.', '7', 'e', '+', '4', '0', '0'] (sample.xfloat.finite false 0 0)
        chars_format.general
      = (⟨109, errc.result_out_of_range⟩, sample.xfloat.inf true) :=
  ⟨(from_chars_double_extreme_exponents sample.consts sample.rounding64 sample.hexadecimal
      100 (sample.xfloat.finite false 0 0) rfl).1,
   (from_chars_double_extreme_exponents sample.consts sample.rounding64 sample.hexadecimal
      100 (sample.xfloat.finite false 0 0) rfl).2.2.2 chars_format.general
      ['-', '1', '.', '7', 'e', '+', '4', '0', '0'] ⟨true, 17, 399, 9⟩
      (by decide) (by decide) (by decide) (by decide)⟩

/-! ### Statuses and destinations of the overloads -/

/-- C26: for half and brain-half destinations the outcome is decided by the
single-precision parse: when that parse returns success the overload returns its
result and the destination holds the narrowed single, and when it returns any other
status, in particular invalid-argument or result-out-of-range, the overload returns
its result and the destination keeps its prior value `v0`. -/
theorem from_chars_half_writes_iff_success {float float16_t bfloat16_t : Type}
    (ff32 impl32 : FromChars float)
    (narrow16 : float → float16_t) (narrowb16 : float → bfloat16_t)
    (first : Ptr) (chars : List Char) (fmt : chars_format)
    (f : float) (h0 : float16_t) (b0 : bfloat16_t) :
    ((from_chars_float ff32 impl32 first chars f fmt).1.ec = errc.success →
        from_chars_float16 ff32 impl32 narrow16 f first chars h0 fmt
            = ((from_chars_float ff32 impl32 first chars f fmt).1,
                narrow16 (from_chars_float ff32 impl32 first chars f fmt).2)
        ∧ from_chars_bfloat16 ff32 impl32 narrowb16 f first chars b0 fmt
            = ((from_chars_float ff32 impl32 first chars f fmt).1,
                narrowb16 (from_chars_float ff32 impl32 first chars f fmt).2))
    ∧ ((from_chars_float ff32 impl32 first chars f fmt).1.ec ≠ errc.success →
        from_chars_float16 ff32 impl32 narrow16 f first chars h0 fmt
            = ((from_chars_float ff32 impl32 first chars f fmt).1, h0)
        ∧ from_chars_bfloat16 ff32 impl32 narrowb16 f first chars b0 fmt
            = ((from_chars_float ff32 impl32 first chars f fmt).1, b0))
    ∧ (((from_chars_float16 ff32 impl32 narrow16 f first chars h0 fmt).1.ec
            = errc.invalid_argument
          ∨ (from_chars_float16 ff32 impl32 narrow16 f first chars h0 fmt).1.ec
            = errc.result_out_of_range) →
        (from_chars_float16 ff32 impl32 narrow16 f first chars h0 fmt).2 = h0)
    ∧ (((from_chars_bfloat16 ff32 impl32 narrowb16 f first chars b0 fmt).1.ec
            = errc.invalid_argument
          ∨ (from_chars_bfloat16 ff32 impl32 narrowb16 f first chars b0 fmt).1.ec
            = errc.result_out_of_range) →
        (from_chars_bfloat16 ff32 impl32 narrowb16 f first chars b0 fmt).2 = b0) := by
  unfold from_chars_float16 from_chars_bfloat16
  by_cases hs : (from_chars_float ff32 impl32 first chars f fmt).1.ec = errc.success
  · simp [hs]
  · simp [hs]

/-- Witness for C26: on the sample platform `12` is written narrowed into a half
preset to 3, while `1e50` (result-out-of-range as a single) and `E01`
(invalid-argument) leave it at 3. -/
theorem from_chars_half_writes_iff_success_witness :
    from_chars_float16 sample.fast_float sample.hexadecimal sample.narrow
        (sample.xfloat.finite false 0 0) 100 ['1', '2']
        (sample.xfloat.finite false 3 0) chars_format.general
      = (⟨102, errc.success⟩, sample.xfloat.finite false 12 0)
    ∧ from_chars_float16 sample.fast_float sample.hexadecimal sample.narrow
        (sample.xfloat.finite false 0 0) 100 ['1', 'e', '5', '0']
        (sample.xfloat.finite false 3 0) chars_format.general
      = (⟨104, errc.result_out_of_range⟩, sample.xfloat.finite false 3 0)
    ∧ from_chars_float16 sample.fast_float sample.hexadecimal sample.narrow
        (sample.xfloat.finite false 0 0) 100 ['E', '0', '1']
        (sample.xfloat.finite false 3 0) chars_format.general
      = (⟨100, errc.invalid_argument⟩, sample.xfloat.finite false 3 0) :=
  ⟨((from_chars_half_writes_iff_success sample.fast_float sample.hexadecimal sample.narrow
      sample.narrow 100 ['1', '2'] chars_format.general
      (sample.xfloat.finite false 0 0) (sample.xfloat.finite false 3 0)
      (sample.xfloat.finite false 3 0)).1 (by decide)).1,
   ((from_chars_half_writes_iff_success sample.fast_float sample.hexadecimal sample.narrow
      sample.narrow 100 ['1', 'e', '5', '0'] chars_format.general
      (sample.xfloat.finite false 0 0) (sample.xfloat.finite false 3 0)
      (sample.xfloat.finite false 3 0)).2.1 (by decide)).1,
   ((from_chars_half_writes_iff_success sample.fast_float sample.hexadecimal sample.narrow
      sample.narrow 100 ['E', '0', '1'] chars_format.general
      (sample.xfloat.finite false 0 0) (sample.xfloat.finite false 3 0)
      (sample.xfloat.finite false 3 0)).2.1 (by decide)).1⟩

/-- When the decimal engine reports result-out-of-range it has read a non-zero token
whose magnitude is classified as overflow or underflow, and it has written the
infinity, respectively the zero, of the token's sign. -/
theorem fast_float_out_of_range {T : Type} (C : FloatConsts T) (R : Rounding T)
    (first : Ptr) (chars : List Char) (value : T) (fmt : chars_format)
    (h : (fast_float.from_chars C R first chars value fmt).1.ec
        = errc.result_out_of_range) :
    ∃ t, parse_decimal fmt chars = some t ∧ t.significand ≠ 0
      ∧ ((R.classify t.significand t.exponent = magnitude.overflow
            ∧ (fast_float.from_chars C R first chars value fmt).2
                = if t.sign then C.neg C.infinity else C.infinity)
          ∨ (R.classify t.significand t.exponent = magnitude.underflow
            ∧ (fast_float.from_chars C R first chars value fmt).2
                = if t.sign then C.neg C.zero else C.zero)) := by
  unfold fast_float.from_chars at h ⊢
  cases hp : parse_decimal fmt chars with
  | none => simp [hp] at h
  | some t =>
    by_cases hz : t.significand = 0
    · simp [hp, hz] at h
    · cases hc : R.classify t.significand t.exponent with
      | in_range => simp [hp, hz, hc] at h
      | overflow => exact ⟨t, rfl, hz, Or.inl ⟨hc, by simp [hp, hz, hc]⟩⟩
      | underflow => exact ⟨t, rfl, hz, Or.inr ⟨hc, by simp [hp, hz, hc]⟩⟩

/-- When the composer of the spec reports result-out-of-range it has classified the
magnitude as overflow or underflow and returns the infinity, respectively the zero,
of the given sign. -/
theorem compute_float_out_of_range {T : Type} (C : FloatConsts T) (R : Rounding T)
    (covered : Int → Nat → Bool) (exponent : Int) (significand : Nat) (sign : Bool)
    (code : errc)
    (h : (compute_float C R covered exponent significand sign code).2
        = errc.result_out_of_range) :
    (R.classify significand exponent = magnitude.overflow
        ∧ (compute_float C R covered exponent significand sign code).1
            = if sign then C.neg C.infinity else C.infinity)
      ∨ (R.classify significand exponent = magnitude.underflow
        ∧ (compute_float C R covered exponent significand sign code).1
            = if sign then C.neg C.zero else C.zero) := by
  unfold compute_float at h ⊢
  by_cases hcov : covered exponent significand = false
  · simp [hcov] at h
  · cases hc : R.classify significand exponent with
    | in_range => simp [hcov, hc] at h
    | overflow => exact Or.inl ⟨rfl, by simp [hcov, hc]⟩
    | underflow => exact Or.inr ⟨rfl, by simp [hcov, hc]⟩

/-- The three ways in which the wide `long double` overload returns
result-out-of-range: the decomposer reported it, the composer reported it, or the
fallback parser reported it. -/
theorem from_chars_long_double_out_of_range {T : Type} (L : FloatConsts T)
    (parser : Parser) (compute_float80 : Composer T) (from_chars_strtod : Strtod T)
    (first : Ptr) (chars : List Char) (value : T) (fmt : chars_format)
    (h : (from_chars_long_double L parser compute_float80 from_chars_strtod first chars
        value fmt).1.ec = errc.result_out_of_range) :
    ((parser first chars false 0 0 fmt).r.ec = errc.result_out_of_range
        ∧ from_chars_long_double L parser compute_float80 from_chars_strtod first chars
            value fmt = ((parser first chars false 0 0 fmt).r, value))
    ∨ ((parser first chars false 0 0 fmt).r.ec = errc.success
        ∧ (parser first chars false 0 0 fmt).significand ≠ 0
        ∧ (compute_float80 (parser first chars false 0 0 fmt).exponent
            (parser first chars false 0 0 fmt).significand
            (parser first chars false 0 0 fmt).sign errc.success).2
            = errc.result_out_of_range
        ∧ from_chars_long_double L parser compute_float80 from_chars_strtod first chars
            value fmt
          = (⟨(parser first chars false 0 0 fmt).r.ptr, errc.result_out_of_range⟩,
              (compute_float80 (parser first chars false 0 0 fmt).exponent
                (parser first chars false 0 0 fmt).significand
                (parser first chars false 0 0 fmt).sign errc.success).1))
    ∨ ((parser first chars false 0 0 fmt).r.ec = errc.success
        ∧ (parser first chars false 0 0 fmt).significand ≠ 0
        ∧ (compute_float80 (parser first chars false 0 0 fmt).exponent
            (parser first chars false 0 0 fmt).significand
            (parser first chars false 0 0 fmt).sign errc.success).2
            = errc.not_supported
        ∧ from_chars_long_double L parser compute_float80 from_chars_strtod first chars
            value fmt = from_chars_strtod first chars value) := by
  unfold from_chars_long_double at h ⊢
  simp only [] at h ⊢
  generalize parser first chars false 0 0 fmt = p at h ⊢
  by_cases h1 : p.r.ec = errc.value_too_large
  · simp [h1] at h
  by_cases h2 : p.r.ec = errc.not_supported
  · by_cases hz : p.significand = 0 <;> simp [h2, hz] at h
  by_cases h3 : p.r.ec = errc.success
  · by_cases hz : p.significand = 0
    · simp [h3, hz] at h
    · generalize hc : compute_float80 p.exponent p.significand p.sign errc.success = c
        at h ⊢
      by_cases h4 : c.2 = errc.success
      · simp [h3, hz, h4] at h
      by_cases h5 : c.2 = errc.result_out_of_range
      · right; left
        simp [h3, hz, h5]
      by_cases h6 : c.2 = errc.not_supported
      · right; right
        simp [h3, hz, h6]
      · simp [h3, hz, h4, h5, h6] at h
  · left
    simp [h1, h2, h3] at h ⊢
    exact h

/-- The three ways in which the `__float128` overload returns
result-out-of-range: the decomposer reported it, the composer reported it, or the
fallback parser reported it. -/
theorem from_chars_float128_out_of_range {T : Type} (Q : FloatConsts T)
    (parser : Parser) (compute_float128 : Composer T) (from_chars_strtod : Strtod T)
    (first : Ptr) (chars : List Char) (value : T) (fmt : chars_format)
    (h : (from_chars_float128 Q parser compute_float128 from_chars_strtod first chars
        value fmt).1.ec = errc.result_out_of_range) :
    ((parser first chars false 0 0 fmt).r.ec = errc.result_out_of_range
        ∧ from_chars_float128 Q parser compute_float128 from_chars_strtod first chars
            value fmt = ((parser first chars false 0 0 fmt).r, value))
    ∨ ((parser first chars false 0 0 fmt).r.ec = errc.success
        ∧ (parser first chars false 0 0 fmt).significand ≠ 0
        ∧ (compute_float128 (parser first chars false 0 0 fmt).exponent
            (parser first chars false 0 0 fmt).significand
            (parser first chars false 0 0 fmt).sign errc.success).2
            = errc.result_out_of_range
        ∧ from_chars_float128 Q parser compute_float128 from_chars_strtod first chars
            value fmt
          = (⟨(parser first chars false 0 0 fmt).r.ptr, errc.result_out_of_range⟩,
              (compute_float128 (parser first chars false 0 0 fmt).exponent
                (parser first chars false 0 0 fmt).significand
                (parser first chars false 0 0 fmt).sign errc.success).1))
    ∨ ((parser first chars false 0 0 fmt).r.ec = errc.success
        ∧ (parser first chars false 0 0 fmt).significand ≠ 0
        ∧ (compute_float128 (parser first chars false 0 0 fmt).exponent
            (parser first chars false 0 0 fmt).significand
            (parser first chars false 0 0 fmt).sign errc.success).2
            = errc.not_supported
        ∧ from_chars_float128 Q parser compute_float128 from_chars_strtod first chars
            value fmt = from_chars_strtod first chars value) := by
  unfold from_chars_float128 at h ⊢
  simp only [] at h ⊢
  generalize parser first chars false 0 0 fmt = p at h ⊢
  by_cases h1 : p.r.ec = errc.value_too_large
  · simp [h1] at h
  by_cases h2 : p.r.ec = errc.not_supported
  · by_cases hz : p.significand = 0 <;> simp [h2, hz] at h
  by_cases h3 : p.r.ec = errc.success
  · by_cases hz : p.significand = 0
    · simp [h3, hz] at h
    · generalize hc : compute_float128 p.exponent p.significand p.sign errc.success = c
        at h ⊢
      by_cases h4 : c.2 = errc.success
      · simp [h3, hz, h4] at h
      by_cases h5 : c.2 = errc.result_out_of_range
      · right; left
        simp [h3, hz, h5]
      by_cases h6 : c.2 = errc.not_supported
      · right; right
        simp [h3, hz, h6]
      · simp [h3, hz, h4, h5, h6] at h
  · left
    simp [h1, h2, h3] at h ⊢
    exact h

/-- Zero has no binary digits. -/
theorem bit_length_aux_zero (fuel : Nat) : bit_length_aux fuel 0 = 0 := by
  cases fuel <;> simp [bit_length_aux]

/-- With enough fuel, `n` is below two to the number of its binary digits and, when
it is not zero, at least two to one less. -/
theorem bit_length_aux_spec : ∀ (fuel n : Nat), n ≤ fuel →
    n < 2 ^ bit_length_aux fuel n ∧ (n ≠ 0 → 2 ^ (bit_length_aux fuel n - 1) ≤ n)
  | 0, n, h => by
    have h0 : n = 0 := by omega
    subst h0
    simp [bit_length_aux]
  | fuel + 1, n, h => by
    by_cases hn : n = 0
    · subst hn
      simp [bit_length_aux]
    · have ih := bit_length_aux_spec fuel (n / 2) (by omega)
      rw [bit_length_aux, if_neg hn]
      constructor
      · rw [pow_succ]
        omega
      · intro _
        rw [Nat.add_sub_cancel]
        by_cases h2 : n / 2 = 0
        · rw [h2, bit_length_aux_zero]
          simp
          omega
        · have h3 := ih.2 h2
          have h4 : bit_length_aux fuel (n / 2) ≠ 0 := by
            intro h5
            rw [h5] at ih
            simp at ih
            omega
          obtain ⟨k, hk⟩ := Nat.exists_eq_succ_of_ne_zero h4
          rw [hk] at h3 ⊢
          rw [Nat.succ_sub_one] at h3
          rw [pow_succ]
          omega

/-- A number is below two to the number of its binary digits. -/
theorem bit_length_lt (n : Nat) : n < 2 ^ bit_length n :=
  (bit_length_aux_spec n n le_rfl).1

/-- A non-zero number is at least two to one less than the number of its binary
digits. -/
theorem bit_length_le (n : Nat) (h : n ≠ 0) : 2 ^ (bit_length n - 1) ≤ n :=
  (bit_length_aux_spec n n le_rfl).2 h

/-- Rounding a quotient to the nearest integer: the remainder is at most half the
divisor, and at exactly half the result is even. -/
theorem round_half_even_spec (a b : Nat) (hb : 0 < b) :
    (2 * a ≤ (2 * round_half_even a b + 1) * b)
    ∧ (2 * round_half_even a b * b ≤ 2 * a + b)
    ∧ ((2 * a = (2 * round_half_even a b + 1) * b ∨ 2 * round_half_even a b * b = 2 * a + b) →
        round_half_even a b % 2 = 0)
    ∧ a / b ≤ round_half_even a b ∧ round_half_even a b ≤ a / b + 1 := by
  have hdm := Nat.div_add_mod a b
  have hr := Nat.mod_lt a hb
  unfold round_half_even
  generalize a / b = q at hdm ⊢
  generalize a % b = r at hdm hr ⊢
  subst hdm
  have e1 : (2 * q + 1) * b = 2 * (b * q) + b := by ring
  have e2 : (2 * (q + 1) + 1) * b = 2 * (b * q) + 3 * b := by ring
  have e3 : 2 * q * b = 2 * (b * q) := by ring
  have e4 : 2 * (q + 1) * b = 2 * (b * q) + 2 * b := by ring
  split_ifs with h1 h2 h3
  · rw [e1, e3]
    refine ⟨by omega, by omega, ?_, by omega, by omega⟩
    intro h
    omega
  · rw [e2, e4]
    refine ⟨by omega, by omega, ?_, by omega, by omega⟩
    intro h
    omega
  · rw [e1, e3]
    refine ⟨by omega, by omega, ?_, by omega, by omega⟩
    intro _
    exact h3
  · rw [e2, e4]
    refine ⟨by omega, by omega, ?_, by omega, by omega⟩
    intro _
    omega

/-- Among the magnitudes `M' * 2 ^ E'` with `M' < 2 ^ 53` and `E'` from `-1074` on,
none is nearer to `q` than `M * 2 ^ E`, provided that `M` is within one half of
`q / 2 ^ E` and that `E` is `-1074` or `q / 2 ^ E` is at least `2 ^ 52`; and one that
is different and as near exists only when `M` is exactly one half away. -/
theorem nearest_scaled (q : ℚ) (E : ℤ) (M : ℕ)
    (hM : |q / 2 ^ E - M| ≤ 1 / 2)
    (hn : E = -1074 ∨ (2 : ℚ) ^ (52 : ℕ) ≤ q / 2 ^ E)
    (M' : ℕ) (E' : ℤ) (hM' : M' < 2 ^ 53) (hE' : -1074 ≤ E') :
    |q - M * 2 ^ E| ≤ |q - M' * 2 ^ E'|
    ∧ (|q - M * 2 ^ E| = |q - M' * 2 ^ E'| → (M : ℚ) * 2 ^ E ≠ M' * 2 ^ E' →
        |q / 2 ^ E - M| = 1 / 2) := by
  have hpos : (0 : ℚ) < 2 ^ E := zpow_pos (by norm_num) E
  have hq : q = q / 2 ^ E * 2 ^ E := by field_simp
  generalize q / 2 ^ E = s at hM hn hq ⊢
  have hy : (M' : ℚ) * 2 ^ E' = (M' * 2 ^ (E' - E)) * 2 ^ E := by
    rw [mul_assoc, ← zpow_add₀ (two_ne_zero), sub_add_cancel]
  generalize hu : (M' : ℚ) * 2 ^ (E' - E) = u at hy
  have d1 : |q - M * 2 ^ E| = |s - M| * 2 ^ E := by
    rw [hq, ← sub_mul, abs_mul, abs_of_pos hpos]
  have d2 : |q - M' * 2 ^ E'| = |s - u| * 2 ^ E := by
    rw [hy, hq, ← sub_mul, abs_mul, abs_of_pos hpos]
  have key : |s - M| ≤ |s - u| ∧ (|s - M| = |s - u| → (M : ℚ) ≠ u → |s - M| = 1 / 2) := by
    by_cases hEE : E ≤ E'
    · obtain ⟨k, hk⟩ : ∃ k : ℕ, E' - E = k := Int.eq_ofNat_of_zero_le (by omega)
      have hN : u = ((M' * 2 ^ k : ℕ) : ℚ) := by
        rw [← hu, hk, zpow_natCast]
        push_cast
        ring
      generalize M' * 2 ^ k = N at hN
      subst hN
      by_cases hNM : N = M
      · subst hNM
        exact ⟨le_rfl, fun _ h => absurd rfl h⟩
      · have h1 : (1 : ℚ) ≤ |(N : ℚ) - M| := by
          have hz : (N : ℤ) - M ≠ 0 := by omega
          have := Int.one_le_abs hz
          exact_mod_cast this
        have tri : |(N : ℚ) - M| ≤ |s - M| + |s - N| := by
          have e : (N : ℚ) - M = (s - M) - (s - N) := by ring
          rw [e]
          exact abs_sub _ _
        constructor
        · linarith
        · intro _ _
          linarith
    · have hs : (2 : ℚ) ^ (52 : ℕ) ≤ s := by
        rcases hn with h | h
        · omega
        · exact h
      have hp : (2 : ℚ) ^ (E' - E) ≤ 2 ^ (-1 : ℤ) :=
        zpow_le_zpow_right₀ (by norm_num) (by omega)
      have hp2 : (2 : ℚ) ^ (-1 : ℤ) = 1 / 2 := by norm_num
      have hp0 : (0 : ℚ) < 2 ^ (E' - E) := zpow_pos (by norm_num) _
      have hMc : (M' : ℚ) ≤ 2 ^ 53 - 1 := by
        have : M' + 1 ≤ 2 ^ 53 := hM'
        have h2 : ((M' + 1 : ℕ) : ℚ) ≤ ((2 ^ 53 : ℕ) : ℚ) := by exact_mod_cast this
        push_cast at h2
        linarith
      have hM0 : (0 : ℚ) ≤ M' := Nat.cast_nonneg _
      have hule : u ≤ (2 ^ 53 - 1) * (1 / 2) := by
        rw [← hu]
        calc (M' : ℚ) * 2 ^ (E' - E) ≤ (2 ^ 53 - 1) * 2 ^ (E' - E) :=
              mul_le_mul_of_nonneg_right hMc hp0.le
          _ ≤ (2 ^ 53 - 1) * (1 / 2) := by
              rw [← hp2]
              exact mul_le_mul_of_nonneg_left hp (by norm_num)
      have hsu : 1 / 2 ≤ s - u := by
        norm_num at hule hs ⊢
        linarith
      have habs : 1 / 2 ≤ |s - u| := le_trans hsu (le_abs_self _)
      constructor
      · linarith
      · intro _ _
        linarith
  constructor
  · rw [d1, d2]
    exact mul_le_mul_of_nonneg_right key.1 hpos.le
  · intro he hne
    rw [d1, d2] at he
    have he2 : |s - M| = |s - u| := mul_right_cancel₀ hpos.ne' he
    apply key.2 he2
    intro h
    apply hne
    rw [hy, h]

/-- Zero has no binary digits. -/
theorem bit_length_zero : bit_length 0 = 0 := rfl

/-- The binary scale chosen by `binary64_nearest`: the scaled quotient is below
`2 ^ 53`, and it is at least `2 ^ 52` unless the scale is the smallest one. -/
theorem scale_bounds (a d : Nat) (hd : 0 < d) :
    a < 2 ^ 53 * (d * 2 ^ (bit_length (a / d) - 53))
    ∧ (bit_length (a / d) - 53 = 0
        ∨ 2 ^ 52 * (d * 2 ^ (bit_length (a / d) - 53)) ≤ a) := by
  have hw1 := bit_length_lt (a / d)
  have hw2 : a < d * (a / d + 1) := Nat.lt_mul_div_succ a hd
  have hw3 : d * (a / d) ≤ a := Nat.mul_div_le a d
  generalize a / d = w at hw1 hw2 hw3 ⊢
  constructor
  · have h1 : 2 ^ bit_length w ≤ 2 ^ (bit_length w - 53 + 53) :=
      Nat.pow_le_pow_right (by norm_num) (by omega)
    have h2 : w + 1 ≤ 2 ^ (bit_length w - 53 + 53) := by omega
    have h3 : d * (w + 1) ≤ d * 2 ^ (bit_length w - 53 + 53) :=
      Nat.mul_le_mul_left d h2
    have h4 : d * 2 ^ (bit_length w - 53 + 53) = 2 ^ 53 * (d * 2 ^ (bit_length w - 53)) := by
      rw [pow_add]
      ring
    omega
  · by_cases ht : bit_length w - 53 = 0
    · exact Or.inl ht
    · right
      have hw0 : w ≠ 0 := by
        intro h
        rw [h, bit_length_zero] at ht
        exact ht rfl
      have h1 := bit_length_le w hw0
      have h2 : bit_length w - 1 = bit_length w - 53 + 52 := by omega
      rw [h2] at h1
      have h3 : d * 2 ^ (bit_length w - 53 + 52) ≤ d * w := Nat.mul_le_mul_left d h1
      have h4 : d * 2 ^ (bit_length w - 53 + 52) = 2 ^ 52 * (d * 2 ^ (bit_length w - 53)) := by
        rw [pow_add]
        ring
      omega

set_option exponentiation.threshold 3000 in
/-- A quotient below `2 ^ 2098` is scaled by at most `2 ^ 2045`. -/
theorem scale_le (a d : Nat) (hd : 0 < d) (h : a < 2 ^ 2098 * d) :
    bit_length (a / d) - 53 ≤ 2045 := by
  have hw : a / d < 2 ^ 2098 := by
    rw [Nat.div_lt_iff_lt_mul hd]
    exact h
  by_contra hc
  have hw0 : a / d ≠ 0 := by
    intro h0
    rw [h0, bit_length_zero] at hc
    omega
  have h1 := bit_length_le (a / d) hw0
  have h2 : 2 ^ 2098 ≤ 2 ^ (bit_length (a / d) - 1) :=
    Nat.pow_le_pow_right (by norm_num) (by omega)
  omega

/-- The decimal magnitude `m * 10 ^ e` as a quotient of natural numbers. -/
theorem decimal_quotient (m : Nat) (e : Int) :
    (m : ℚ) * 10 ^ e
      = ((if 0 ≤ e then m * 10 ^ e.toNat else m : Nat) : ℚ)
        / ((if 0 ≤ e then 1 else 10 ^ (-e).toNat : Nat) : ℚ) := by
  by_cases he : 0 ≤ e
  · rw [if_pos he, if_pos he]
    obtain ⟨k, rfl⟩ := Int.eq_ofNat_of_zero_le he
    simp
  · rw [if_neg he, if_neg he]
    obtain ⟨k, hk⟩ : ∃ k : ℕ, -e = k := Int.eq_ofNat_of_zero_le (by omega)
    have he2 : e = -(k : ℤ) := by omega
    rw [hk, he2]
    simp [div_eq_mul_inv]

set_option exponentiation.threshold 3000 in
/-- In range means below the overflow threshold `2 ^ 1024 - 2 ^ 970`. -/
theorem in_range_lt (m : Nat) (e : Int) (h : binary64_classify m e = magnitude.in_range) :
    (if 0 ≤ e then m * 10 ^ e.toNat else m)
      < (2 ^ 1024 - 2 ^ 970) * (if 0 ≤ e then 1 else 10 ^ (-e).toNat) := by
  unfold binary64_classify at h
  by_cases he : 0 ≤ e
  · rw [if_pos he] at h
    rw [if_pos he, if_pos he]
    by_cases h1 : 2 ^ 1024 - 2 ^ 970 ≤ m * 10 ^ e.toNat
    · rw [if_pos h1] at h
      cases h
    · omega
  · rw [if_neg he] at h
    rw [if_neg he, if_neg he]
    by_cases h1 : (2 ^ 1024 - 2 ^ 970) * 10 ^ (-e).toNat ≤ m
    · rw [if_pos h1] at h
      cases h
    · omega

/-- The quotient scaled by the chosen power of two, as a quotient of natural
numbers. -/
theorem scaled_quotient (n d t : Nat) (hd : 0 < d) :
    (n : ℚ) / d / 2 ^ ((t : ℤ) - 1074)
      = ((n * 2 ^ 1074 : ℕ) : ℚ) / ((d * 2 ^ t : ℕ) : ℚ) := by
  have hd2 : (d : ℚ) ≠ 0 := by exact_mod_cast hd.ne'
  rw [zpow_sub₀ (two_ne_zero), zpow_natCast, zpow_ofNat, Nat.cast_mul, Nat.cast_mul,
    Nat.cast_pow, Nat.cast_pow, Nat.cast_ofNat]
  have hP : (2 : ℚ) ^ 1074 ≠ 0 := pow_ne_zero _ two_ne_zero
  have hT : (2 : ℚ) ^ t ≠ 0 := pow_ne_zero _ two_ne_zero
  generalize (2 : ℚ) ^ 1074 = P at hP ⊢
  generalize (2 : ℚ) ^ t = T at hT ⊢
  field_simp

/-- In rational terms: the rounded quotient is within one half of the quotient, and
exactly one half away only when it is even. -/
theorem round_half_even_rat (a b : Nat) (hb : 0 < b) :
    |(a : ℚ) / b - round_half_even a b| ≤ 1 / 2
    ∧ (|(a : ℚ) / b - round_half_even a b| = 1 / 2 → round_half_even a b % 2 = 0) := by
  obtain ⟨r1, r2, r3, -, -⟩ := round_half_even_spec a b hb
  generalize round_half_even a b = M at r1 r2 r3 ⊢
  have hbq : (0 : ℚ) < b := by exact_mod_cast hb
  have r1q : (2 : ℚ) * a ≤ (2 * M + 1) * b := by exact_mod_cast r1
  have r2q : (2 : ℚ) * M * b ≤ 2 * a + b := by exact_mod_cast r2
  have e : (a : ℚ) / b - M = (a - M * b) / b := by
    field_simp
    ring
  rw [e, abs_div, abs_of_pos hbq]
  constructor
  · rw [div_le_iff₀ hbq, abs_le]
    constructor <;> linarith
  · intro h
    rw [div_eq_iff hbq.ne'] at h
    apply r3
    rcases abs_eq (by positivity : (0 : ℚ) ≤ 1 / 2 * b) |>.mp h with h1 | h1
    · left
      have : (2 : ℚ) * a = (2 * M + 1) * b := by linarith
      exact_mod_cast this
    · right
      have : (2 : ℚ) * M * b = 2 * a + b := by linarith
      exact_mod_cast this

set_option exponentiation.threshold 3000 in
/-- The rounding of the decimal engine for `double` is correct: for a magnitude in
range the value is the representable one nearest to `m * 10 ^ e`, with an even
significand at a tie. -/
theorem binary64_nearest_correct (sign : Bool) (m : Nat) (e : Int)
    (h : binary64_classify m e = magnitude.in_range) :
    correctly_rounded sign ((m : ℚ) * 10 ^ e) (binary64_nearest sign m e) := by
  have hq := decimal_quotient m e
  have hlt := in_range_lt m e h
  have hd : 0 < (if 0 ≤ e then 1 else 10 ^ (-e).toNat : Nat) := by
    split_ifs
    · exact Nat.one_pos
    · exact Nat.pow_pos (by norm_num)
  unfold binary64_nearest
  simp only []
  rw [hq]
  generalize (if 0 ≤ e then m * 10 ^ e.toNat else m : Nat) = n at hlt ⊢
  generalize (if 0 ≤ e then 1 else 10 ^ (-e).toNat : Nat) = d at hlt hd ⊢
  have hlt2 : n * 2 ^ 1074 < 2 ^ 2098 * d := by
    have h1 : n * 2 ^ 1074 < (2 ^ 1024 - 2 ^ 970) * d * 2 ^ 1074 :=
      Nat.mul_lt_mul_of_pos_right hlt (Nat.pow_pos (by norm_num))
    have h2 : (2 ^ 1024 - 2 ^ 970) * d * 2 ^ 1074 ≤ 2 ^ 2098 * d := by
      have : (2 ^ 1024 - 2 ^ 970) * d * 2 ^ 1074 = (2 ^ 1024 - 2 ^ 970) * 2 ^ 1074 * d := by
        ring
      rw [this]
      exact Nat.mul_le_mul_right d (by norm_num)
    omega
  obtain ⟨hs1, hs2⟩ := scale_bounds (n * 2 ^ 1074) d hd
  have hsl := scale_le (n * 2 ^ 1074) d hd hlt2
  have hsq := fun t => scaled_quotient n d t hd
  generalize bit_length (n * 2 ^ 1074 / d) - 53 = t at hs1 hs2 hsl ⊢
  have hB : 0 < d * 2 ^ t := Nat.mul_pos hd (Nat.pow_pos (by norm_num))
  obtain ⟨r1, r2, -, r4, r5⟩ := round_half_even_spec (n * 2 ^ 1074) (d * 2 ^ t) hB
  obtain ⟨q1, q2⟩ := round_half_even_rat (n * 2 ^ 1074) (d * 2 ^ t) hB
  rw [← hsq t] at q1 q2
  have hM53 : round_half_even (n * 2 ^ 1074) (d * 2 ^ t) ≤ 2 ^ 53 := by
    have : n * 2 ^ 1074 / (d * 2 ^ t) < 2 ^ 53 := by
      rw [Nat.div_lt_iff_lt_mul hB]
      exact hs1
    omega
  have hM52 : t ≠ 0 → 2 ^ 52 ≤ round_half_even (n * 2 ^ 1074) (d * 2 ^ t) := by
    intro ht
    have : 2 ^ 52 ≤ n * 2 ^ 1074 / (d * 2 ^ t) := by
      rw [Nat.le_div_iff_mul_le hB]
      rcases hs2 with h0 | h0
      · exact absurd h0 ht
      · exact h0
    omega
  have hn : (t : ℤ) - 1074 = -1074
      ∨ (2 : ℚ) ^ (52 : ℕ) ≤ (n : ℚ) / d / 2 ^ ((t : ℤ) - 1074) := by
    rcases hs2 with h0 | h0
    · left
      omega
    · right
      rw [hsq t, le_div_iff₀ (by exact_mod_cast hB)]
      exact_mod_cast h0
  generalize round_half_even (n * 2 ^ 1074) (d * 2 ^ t) = M at r1 r2 r4 r5 q1 q2 hM53 hM52 ⊢
  have ns := nearest_scaled ((n : ℚ) / d) ((t : ℤ) - 1074) M q1 hn
  by_cases hM : M = 2 ^ 53
  · rw [if_pos hM]
    have ht : t ≤ 2044 := by
      by_contra hc
      have h1 : 2 ^ 2045 ≤ 2 ^ t := Nat.pow_le_pow_right (by norm_num) (by omega)
      have h2 : (2 ^ 54 - 1) * (d * 2 ^ 2045) ≤ (2 ^ 54 - 1) * (d * 2 ^ t) :=
        Nat.mul_le_mul_left _ (Nat.mul_le_mul_left _ h1)
      have h3 : 2 * (n * 2 ^ 1074) < 2 * ((2 ^ 1024 - 2 ^ 970) * d * 2 ^ 1074) :=
        Nat.mul_lt_mul_of_pos_left
          (Nat.mul_lt_mul_of_pos_right hlt (Nat.pow_pos (by norm_num))) (by norm_num)
      have h4 : 2 * ((2 ^ 1024 - 2 ^ 970) * d * 2 ^ 1074) = (2 ^ 54 - 1) * (d * 2 ^ 2045) := by
        have : (2 : ℕ) * ((2 ^ 1024 - 2 ^ 970) * 2 ^ 1074) = (2 ^ 54 - 1) * 2 ^ 2045 := by
          norm_num
        calc 2 * ((2 ^ 1024 - 2 ^ 970) * d * 2 ^ 1074)
            = (2 * ((2 ^ 1024 - 2 ^ 970) * 2 ^ 1074)) * d := by ring
          _ = (2 ^ 54 - 1) * 2 ^ 2045 * d := by rw [this]
          _ = (2 ^ 54 - 1) * (d * 2 ^ 2045) := by ring
      have h5 : (2 ^ 54 - 1) * (d * 2 ^ t) ≤ 2 * (n * 2 ^ 1074) := by
        rw [hM] at r2
        have : (2 ^ 54 - 1) * (d * 2 ^ t) + d * 2 ^ t = 2 * 2 ^ 53 * (d * 2 ^ t) := by
          have e54 : (2 : ℕ) ^ 54 - 1 + 1 = 2 * 2 ^ 53 := by norm_num
          calc (2 ^ 54 - 1) * (d * 2 ^ t) + d * 2 ^ t
              = (2 ^ 54 - 1 + 1) * (d * 2 ^ t) := by ring
            _ = 2 * 2 ^ 53 * (d * 2 ^ t) := by rw [e54]
        omega
      omega
    have hv : ((2 ^ 52 : ℕ) : ℚ) * 2 ^ ((t : ℤ) + 1 - 1074)
        = (M : ℚ) * 2 ^ ((t : ℤ) - 1074) := by
      rw [hM, show (t : ℤ) + 1 - 1074 = ((t : ℤ) - 1074) + 1 by ring,
        zpow_add_one₀ (two_ne_zero)]
      push_cast
      ring
    refine ⟨2 ^ 52, (t : ℤ) + 1 - 1074, rfl,
      ⟨⟨by norm_num, by omega, by omega⟩, Or.inr le_rfl⟩, ?_⟩
    intro M' E' hrep
    rw [hv]
    refine ⟨(ns M' E' hrep.1 hrep.2.1).1, fun _ _ => by norm_num⟩
  · rw [if_neg hM]
    refine ⟨M, (t : ℤ) - 1074, rfl, ⟨⟨by omega, by omega, by omega⟩, ?_⟩, ?_⟩
    · by_cases ht : t = 0
      · left
        omega
      · right
        exact hM52 ht
    · intro M' E' hrep
      exact ⟨(ns M' E' hrep.1 hrep.2.1).1,
        fun he hne => q2 ((ns M' E' hrep.1 hrep.2.1).2 he hne)⟩

/-- A significand below `2 ^ 53` at a smaller exponent is below a normalised
significand at a larger exponent. -/
theorem scaled_lt_of_exponent_lt (M1 M2 : ℕ) (E1 E2 : ℤ) (h1 : M1 < 2 ^ 53)
    (h2 : 2 ^ 52 ≤ M2) (hE : E1 < E2) : (M1 : ℚ) * 2 ^ E1 < M2 * 2 ^ E2 := by
  have p1 : (0 : ℚ) < 2 ^ E1 := zpow_pos (by norm_num) _
  have p2 : (0 : ℚ) < 2 ^ E2 := zpow_pos (by norm_num) _
  have hm : (2 : ℚ) ^ (E1 + 1) ≤ 2 ^ E2 := zpow_le_zpow_right₀ (by norm_num) (by omega)
  rw [zpow_add_one₀ (two_ne_zero)] at hm
  have c1 : (M1 : ℚ) < 2 ^ 53 := by exact_mod_cast h1
  have c2 : (2 : ℚ) ^ 52 ≤ M2 := by exact_mod_cast h2
  calc (M1 : ℚ) * 2 ^ E1 < 2 ^ 53 * 2 ^ E1 := mul_lt_mul_of_pos_right c1 p1
    _ = 2 ^ 52 * (2 ^ E1 * 2) := by ring
    _ ≤ 2 ^ 52 * 2 ^ E2 := mul_le_mul_of_nonneg_left hm (by positivity)
    _ ≤ M2 * 2 ^ E2 := mul_le_mul_of_nonneg_right c2 p2.le

/-- A canonical significand and exponent are determined by the magnitude. -/
theorem binary64_canonical_unique (M1 M2 : ℕ) (E1 E2 : ℤ)
    (h1 : binary64_canonical M1 E1) (h2 : binary64_canonical M2 E2)
    (h : (M1 : ℚ) * 2 ^ E1 = M2 * 2 ^ E2) : M1 = M2 ∧ E1 = E2 := by
  obtain ⟨⟨a1, b1, -⟩, c1⟩ := h1
  obtain ⟨⟨a2, b2, -⟩, c2⟩ := h2
  rcases lt_trichotomy E1 E2 with hlt | heq | hgt
  · have hM : 2 ^ 52 ≤ M2 := by
      rcases c2 with c | c
      · omega
      · exact c
    exact absurd h (ne_of_lt (scaled_lt_of_exponent_lt M1 M2 E1 E2 a1 hM hlt))
  · subst heq
    have p1 : (2 : ℚ) ^ E1 ≠ 0 := (zpow_pos (by norm_num) _).ne'
    have := mul_right_cancel₀ p1 h
    exact ⟨by exact_mod_cast this, rfl⟩
  · have hM : 2 ^ 52 ≤ M1 := by
      rcases c1 with c | c
      · omega
      · exact c
    exact absurd h.symm (ne_of_lt (scaled_lt_of_exponent_lt M2 M1 E2 E1 a2 hM hgt))

/-- Between two canonical magnitudes with even significands lies a representable
magnitude. -/
theorem binary64_between (M1 M2 : ℕ) (E1 E2 : ℤ)
    (h1 : binary64_canonical M1 E1) (h2 : binary64_canonical M2 E2)
    (e1 : M1 % 2 = 0) (e2 : M2 % 2 = 0) (h : (M1 : ℚ) * 2 ^ E1 < M2 * 2 ^ E2) :
    ∃ (M : ℕ) (E : ℤ), binary64_representable M E
      ∧ (M1 : ℚ) * 2 ^ E1 < M * 2 ^ E ∧ (M : ℚ) * 2 ^ E < M2 * 2 ^ E2 := by
  obtain ⟨⟨a1, b1, t1⟩, c1⟩ := h1
  obtain ⟨⟨a2, b2, t2⟩, c2⟩ := h2
  have p1 : (0 : ℚ) < 2 ^ E1 := zpow_pos (by norm_num) _
  have p2 : (0 : ℚ) < 2 ^ E2 := zpow_pos (by norm_num) _
  rcases lt_trichotomy E1 E2 with hlt | heq | hgt
  · have hM : 2 ^ 52 ≤ M2 := by
      rcases c2 with c | c
      · omega
      · exact c
    by_cases hM2 : M2 = 2 ^ 52
    · refine ⟨2 ^ 53 - 1, E2 - 1, ⟨by norm_num, by omega, by omega⟩, ?_, ?_⟩
      · have hm : (2 : ℚ) ^ E1 ≤ 2 ^ (E2 - 1) :=
          zpow_le_zpow_right₀ (by norm_num) (by omega)
        have c : (M1 : ℚ) < ((2 ^ 53 - 1 : ℕ) : ℚ) := by
          have : M1 < 2 ^ 53 - 1 := by omega
          exact_mod_cast this
        calc (M1 : ℚ) * 2 ^ E1 < ((2 ^ 53 - 1 : ℕ) : ℚ) * 2 ^ E1 :=
              mul_lt_mul_of_pos_right c p1
          _ ≤ ((2 ^ 53 - 1 : ℕ) : ℚ) * 2 ^ (E2 - 1) :=
              mul_le_mul_of_nonneg_left hm (Nat.cast_nonneg _)
      · have hz : (2 : ℚ) ^ E2 = 2 ^ (E2 - 1) * 2 := by
          rw [← zpow_add_one₀ (two_ne_zero), sub_add_cancel]
        have p3 : (0 : ℚ) < 2 ^ (E2 - 1) := zpow_pos (by norm_num) _
        rw [hM2, hz]
        have c : (((2 ^ 53 - 1 : ℕ) : ℚ)) < ((2 ^ 52 : ℕ) : ℚ) * 2 := by norm_num
        calc ((2 ^ 53 - 1 : ℕ) : ℚ) * 2 ^ (E2 - 1)
            < (((2 ^ 52 : ℕ) : ℚ) * 2) * 2 ^ (E2 - 1) := mul_lt_mul_of_pos_right c p3
          _ = ((2 ^ 52 : ℕ) : ℚ) * (2 ^ (E2 - 1) * 2) := by ring
    · refine ⟨M2 - 1, E2, ⟨by omega, b2, t2⟩, ?_, ?_⟩
      · exact scaled_lt_of_exponent_lt M1 (M2 - 1) E1 E2 a1 (by omega) hlt
      · have c : ((M2 - 1 : ℕ) : ℚ) < M2 := by
          have : M2 - 1 < M2 := by omega
          exact_mod_cast this
        exact mul_lt_mul_of_pos_right c p2
  · subst heq
    have hlt : (M1 : ℚ) < M2 := lt_of_mul_lt_mul_right h p1.le
    have hlt2 : M1 < M2 := by exact_mod_cast hlt
    refine ⟨M1 + 1, E1, ⟨by omega, b1, t1⟩, ?_, ?_⟩
    · have c : (M1 : ℚ) < ((M1 + 1 : ℕ) : ℚ) := by
        have : M1 < M1 + 1 := by omega
        exact_mod_cast this
      exact mul_lt_mul_of_pos_right c p1
    · have c : ((M1 + 1 : ℕ) : ℚ) < M2 := by
        have : M1 + 1 < M2 := by omega
        exact_mod_cast this
      exact mul_lt_mul_of_pos_right c p1
  · have hM : 2 ^ 52 ≤ M1 := by
      rcases c1 with c | c
      · omega
      · exact c
    exact absurd h (not_lt.mpr (scaled_lt_of_exponent_lt M2 M1 E2 E1 a2 hM hgt).le)

/-- A magnitude strictly between two magnitudes that are equally far from `q` is
nearer to `q` than both. -/
theorem abs_sub_lt_of_between (q v1 v2 z : ℚ) (h : |q - v1| = |q - v2|)
    (h1 : v1 < z) (h2 : z < v2) : |q - z| < |q - v1| := by
  rcases abs_eq_abs.mp h with e | e
  · linarith
  · have hq : q - v1 = (v2 - v1) / 2 := by linarith
    rw [hq, abs_of_pos (by linarith : (0 : ℚ) < (v2 - v1) / 2), abs_lt]
    constructor <;> linarith

/-- The correctly rounded value of a number is unique. -/
theorem correctly_rounded_unique (sign : Bool) (q : ℚ) (x y : binary64)
    (hx : correctly_rounded sign q x) (hy : correctly_rounded sign q y) : x = y := by
  obtain ⟨M1, E1, rfl, c1, n1⟩ := hx
  obtain ⟨M2, E2, rfl, c2, n2⟩ := hy
  have d12 := (n1 M2 E2 c2.1).1
  have d21 := (n2 M1 E1 c1.1).1
  have deq : |q - M1 * 2 ^ E1| = |q - M2 * 2 ^ E2| := le_antisymm d12 d21
  by_cases hv : (M1 : ℚ) * 2 ^ E1 = M2 * 2 ^ E2
  · obtain ⟨rfl, rfl⟩ := binary64_canonical_unique M1 M2 E1 E2 c1 c2 hv
    rfl
  · exfalso
    have e1 : M1 % 2 = 0 := (n1 M2 E2 c2.1).2 deq hv
    have e2 : M2 % 2 = 0 := (n2 M1 E1 c1.1).2 deq.symm (Ne.symm hv)
    rcases lt_or_gt_of_ne hv with hlt | hgt
    · obtain ⟨M, E, hr, hz1, hz2⟩ := binary64_between M1 M2 E1 E2 c1 c2 e1 e2 hlt
      have h1 := (n1 M E hr).1
      have h2 := abs_sub_lt_of_between q _ _ _ deq hz1 hz2
      exact absurd h1 (not_le.mpr h2)
    · obtain ⟨M, E, hr, hz1, hz2⟩ := binary64_between M2 M1 E2 E1 c2 c1 e2 e1 hgt
      have h1 := (n2 M E hr).1
      have h2 := abs_sub_lt_of_between q _ _ _ deq.symm hz1 hz2
      exact absurd h1 (not_le.mpr h2)

/-- The zero of a sign is the correctly rounded value of zero. -/
theorem correctly_rounded_zero (sign : Bool) :
    correctly_rounded sign 0
      (if sign then binary64_consts.neg binary64_consts.zero else binary64_consts.zero) := by
  refine ⟨0, -1074, ?_, ⟨⟨by norm_num, le_rfl, by norm_num⟩, Or.inl rfl⟩, ?_⟩
  · cases sign <;> rfl
  · intro M' E' _
    simp

/-- The value that the decimal engine for `double` writes for a token that is zero
or in range is the correctly rounded value of the token's number. -/
theorem fast_double_value (t : decimal_token)
    (h : t.significand = 0
      ∨ binary64_classify t.significand t.exponent = magnitude.in_range) :
    (reference_conversion binary64_consts binary64_rounding t.sign t.significand
        t.exponent).1 = errc.success
    ∧ correctly_rounded t.sign ((t.significand : ℚ) * 10 ^ t.exponent)
        (reference_conversion binary64_consts binary64_rounding t.sign t.significand
          t.exponent).2 := by
  unfold reference_conversion
  by_cases hz : t.significand = 0
  · rw [if_pos hz, hz]
    refine ⟨rfl, ?_⟩
    rw [Nat.cast_zero, zero_mul]
    exact correctly_rounded_zero t.sign
  · rw [if_neg hz]
    have hc : binary64_rounding.classify t.significand t.exponent = magnitude.in_range := by
      rcases h with h | h
      · exact absurd h hz
      · exact h
    rw [hc]
    exact ⟨rfl, binary64_nearest_correct t.sign t.significand t.exponent hc⟩

/-- The decimal engine for `double` returns success only for a token that is zero or
in range. -/
theorem fast_double_success (t : decimal_token)
    (h : (reference_conversion binary64_consts binary64_rounding t.sign t.significand
        t.exponent).1 = errc.success) :
    t.significand = 0
      ∨ binary64_classify t.significand t.exponent = magnitude.in_range := by
  unfold reference_conversion at h
  by_cases hz : t.significand = 0
  · exact Or.inl hz
  · right
    rw [if_neg hz] at h
    have e : binary64_rounding.classify t.significand t.exponent
        = binary64_classify t.significand t.exponent := rfl
    rw [e] at h
    cases hc : binary64_classify t.significand t.exponent with
    | in_range => rfl
    | overflow => rw [hc] at h; cases h
    | underflow => rw [hc] at h; cases h

/-- C22: against the decimal engine as the spec describes it, with the rounding of
`double` carried out, in scientific, fixed and general format.  Whenever
`from_chars` into a `double` accepts a text, that is, returns success, the text
holds a token, the pointer is past the token, and the double written is a correctly
rounded value (nearest, ties to even) of the token's number and equals every
correctly rounded value of it, so it is the value that a reference correctly rounded
conversion produces.  A text that is a well-formed numeral of the format whose
number is zero or within the range of `double` is accepted, and its token is the
number that the numeral denotes. -/
theorem from_chars_double_matches_reference (impl64 : FromChars binary64) (first : Ptr)
    (v : binary64) (fmt : chars_format) (hfmt : fmt ≠ chars_format.hex) :
    (∀ chars : List Char,
        (from_chars_double (fast_float.from_chars binary64_consts binary64_rounding) impl64
          first chars v fmt).1.ec = errc.success →
        ∃ t : decimal_token, parse_decimal fmt chars = some t
          ∧ (from_chars_double (fast_float.from_chars binary64_consts binary64_rounding)
              impl64 first chars v fmt).1 = ⟨first + t.length, errc.success⟩
          ∧ correctly_rounded t.sign ((t.significand : ℚ) * 10 ^ t.exponent)
              (from_chars_double (fast_float.from_chars binary64_consts binary64_rounding)
                impl64 first chars v fmt).2
          ∧ ∀ r : binary64,
              correctly_rounded t.sign ((t.significand : ℚ) * 10 ^ t.exponent) r →
              (from_chars_double (fast_float.from_chars binary64_consts binary64_rounding)
                impl64 first chars v fmt).2 = r)
    ∧ ∀ n : numeral, n.valid → n.fits fmt →
        (n.token.significand = 0
          ∨ binary64_classify n.token.significand n.token.exponent = magnitude.in_range) →
        parse_decimal fmt n.text = some n.token
        ∧ (from_chars_double (fast_float.from_chars binary64_consts binary64_rounding) impl64
            first n.text v fmt).1 = ⟨first + n.text.length, errc.success⟩
        ∧ correctly_rounded n.minus
            ((digits_value (n.int_digits ++ n.frac_digits) : ℚ)
              * 10 ^ (n.expo_value - (n.frac_digits.length : Int)))
            (from_chars_double (fast_float.from_chars binary64_consts binary64_rounding)
              impl64 first n.text v fmt).2 := by
  have hd : ∀ chars,
      from_chars_double (fast_float.from_chars binary64_consts binary64_rounding) impl64
        first chars v fmt
      = fast_float.from_chars binary64_consts binary64_rounding first chars v fmt := by
    intro chars
    simp [from_chars_double, hfmt]
  constructor
  · intro chars hs
    rw [hd] at hs ⊢
    cases hp : parse_decimal fmt chars with
    | none =>
      simp [fast_float.from_chars, hp] at hs
    | some t =>
      have e := fast_float_of_token binary64_consts binary64_rounding first chars v fmt t hp
      rw [e] at hs ⊢
      have hv := fast_double_value t (fast_double_success t hs)
      refine ⟨t, rfl, ?_, hv.2, ?_⟩
      · simp only at hs
        rw [hs]
      · intro r hr
        exact correctly_rounded_unique t.sign _ _ _ hv.2 hr
  · intro n hv hf hr
    have hp := parse_decimal_numeral fmt n hv hf
    have e := fast_float_of_token binary64_consts binary64_rounding first n.text v fmt
      n.token hp
    have hv2 := fast_double_value n.token hr
    rw [hd, e]
    refine ⟨hp, ?_, hv2.2⟩
    rw [hv2.1]
    rfl

set_option exponentiation.threshold 3000 in
/-- Witness for C22: `1.7e+308` and `1.7e-308` in scientific format.  The first is
written as `8517715530038134 * 2 ^ 971`, the second as the subnormal
`3440838306224281 * 2 ^ (-1074)`, and these are the correctly rounded values of
`17 * 10 ^ 307` and of `17 * 10 ^ (-309)`. -/
theorem from_chars_double_matches_reference_witness :
    (from_chars_double (fast_float.from_chars binary64_consts binary64_rounding)
          sample.hexadecimal64 100
          (numeral.text ⟨false, ['1'], some ['7'], some ('e', ['+'], ['3', '0', '8'])⟩)
          (binary64.finite false 0 (-1074)) chars_format.scientific
        = (⟨108, errc.success⟩, binary64.finite false 8517715530038134 971)
      ∧ correctly_rounded false ((17 : ℚ) * 10 ^ (307 : ℤ))
          (binary64.finite false 8517715530038134 971))
    ∧ (from_chars_double (fast_float.from_chars binary64_consts binary64_rounding)
          sample.hexadecimal64 100
          (numeral.text ⟨false, ['1'], some ['7'], some ('e', ['-'], ['3', '0', '8'])⟩)
          (binary64.finite false 0 (-1074)) chars_format.scientific
        = (⟨108, errc.success⟩, binary64.finite false 3440838306224281 (-1074))
      ∧ correctly_rounded false ((17 : ℚ) * 10 ^ (-309 : ℤ))
          (binary64.finite false 3440838306224281 (-1074))) := by
  constructor
  · have h := ((from_chars_double_matches_reference sample.hexadecimal64 100
      (binary64.finite false 0 (-1074)) chars_format.scientific (by decide)).2
      ⟨false, ['1'], some ['7'], some ('e', ['+'], ['3', '0', '8'])⟩
      (by decide) (by decide) (Or.inr (by decide))).2.2
    have hv : from_chars_double (fast_float.from_chars binary64_consts binary64_rounding)
          sample.hexadecimal64 100
          (numeral.text ⟨false, ['1'], some ['7'], some ('e', ['+'], ['3', '0', '8'])⟩)
          (binary64.finite false 0 (-1074)) chars_format.scientific
        = (⟨108, errc.success⟩, binary64.finite false 8517715530038134 971) := by
      decide!
    rw [hv] at h
    exact ⟨hv, h⟩
  · have h := ((from_chars_double_matches_reference sample.hexadecimal64 100
      (binary64.finite false 0 (-1074)) chars_format.scientific (by decide)).2
      ⟨false, ['1'], some ['7'], some ('e', ['-'], ['3', '0', '8'])⟩
      (by decide) (by decide) (Or.inr (by decide))).2.2
    have hv : from_chars_double (fast_float.from_chars binary64_consts binary64_rounding)
          sample.hexadecimal64 100
          (numeral.text ⟨false, ['1'], some ['7'], some ('e', ['-'], ['3', '0', '8'])⟩)
          (binary64.finite false 0 (-1074)) chars_format.scientific
        = (⟨108, errc.success⟩, binary64.finite false 3440838306224281 (-1074)) := by
      decide!
    rw [hv] at h
    exact ⟨hv, h⟩

end charconv
